import Mathlib

/-!
Verification of the Reticulum-rs networking stack against its
natural-language specification.  The development shallowly embeds the
relevant Rust source files (`resource.rs`, `destination.rs`,
`rpc/daemon.rs`, `lxmf_bridge.rs`) as executable Lean definitions; bytes
are `Nat` (< 256), machine integers are `Nat`/`Int` with explicit range
handling, fallible code returns `Option`/`Except`.
-/

namespace RnsCrypto

/-- Modelled from the spec: the repository's hash module (`hash.rs`, absent
from the sources) wraps the `sha2` crate's SHA-256.  This is FIPS 180-4
SHA-256 over byte lists, executable by the kernel. -/
def word32 (n : Nat) : Nat := n % 4294967296

def rotr32 (n x : Nat) : Nat :=
  word32 ((x >>> n) ||| (x <<< (32 - n)))

def shaCh (x y z : Nat) : Nat := (x &&& y) ^^^ ((word32 (4294967295 - x)) &&& z)

def shaMaj (x y z : Nat) : Nat := (x &&& y) ^^^ (x &&& z) ^^^ (y &&& z)

def bigSigma0 (x : Nat) : Nat := rotr32 2 x ^^^ rotr32 13 x ^^^ rotr32 22 x

def bigSigma1 (x : Nat) : Nat := rotr32 6 x ^^^ rotr32 11 x ^^^ rotr32 25 x

def smallSigma0 (x : Nat) : Nat := rotr32 7 x ^^^ rotr32 18 x ^^^ (x >>> 3)

def smallSigma1 (x : Nat) : Nat := rotr32 17 x ^^^ rotr32 19 x ^^^ (x >>> 10)

def shaK : List Nat :=
  [1116352408, 1899447441, 3049323471, 3921009573, 961987163, 1508970993,
   2453635748, 2870763221, 3624381080, 310598401, 607225278, 1426881987,
   1925078388, 2162078206, 2614888103, 3248222580, 3835390401, 4022224774,
   264347078, 604807628, 770255983, 1249150122, 1555081692, 1996064986,
   2554220882, 2821834349, 2952996808, 3210313671, 3336571891, 3584528711,
   113926993, 338241895, 666307205, 773529912, 1294757372, 1396182291,
   1695183700, 1986661051, 2177026350, 2456956037, 2730485921, 2820302411,
   3259730800, 3345764771, 3516065817, 3600352804, 4094571909, 275423344,
   430227734, 506948616, 659060556, 883997877, 958139571, 1322822218,
   1537002063, 1747873779, 1955562222, 2024104815, 2227730452, 2361852424,
   2428436474, 2756734187, 3204031479, 3329325298]

def shaInit : List Nat :=
  [1779033703, 3144134277, 1013904242, 2773480762,
   1359893119, 2600822924, 528734635, 1541459225]

/-- Big-endian bytes of a number, fixed width `k` bytes. -/
def natToBytesBE (k n : Nat) : List Nat :=
  match k with
  | 0 => []
  | k + 1 => natToBytesBE k (n >>> 8) ++ [n % 256]

/-- Group 4 consecutive bytes into one big-endian 32-bit word. -/
def bytesToWords : List Nat → List Nat
  | b0 :: b1 :: b2 :: b3 :: rest =>
      (b0 <<< 24 ||| b1 <<< 16 ||| b2 <<< 8 ||| b3) :: bytesToWords rest
  | _ => []

def wordsToBytes : List Nat → List Nat
  | [] => []
  | w :: rest =>
      (w >>> 24) % 256 :: (w >>> 16) % 256 :: (w >>> 8) % 256 :: w % 256 ::
        wordsToBytes rest

/-- SHA-256 padding: append `0x80`, zeros, then the 64-bit bit length. -/
def shaPad (msg : List Nat) : List Nat :=
  let n := msg.length
  let zeros := (64 + 56 - (n + 1) % 64) % 64
  msg ++ (0x80 :: List.replicate zeros 0) ++ natToBytesBE 8 (8 * n)

/-- Extend the 16 block words to the 64-entry message schedule. -/
def extendSchedule : Nat → List Nat → List Nat
  | 0, acc => acc
  | fuel + 1, acc =>
      let t := acc.length
      let w := word32 (smallSigma1 (acc.getD (t - 2) 0) + acc.getD (t - 7) 0 +
        smallSigma0 (acc.getD (t - 15) 0) + acc.getD (t - 16) 0)
      extendSchedule fuel (acc ++ [w])

structure Sha8 where
  a : Nat
  b : Nat
  c : Nat
  d : Nat
  e : Nat
  f : Nat
  g : Nat
  h : Nat
deriving Repr, DecidableEq

def compressRound (st : Sha8) (kw : Nat × Nat) : Sha8 :=
  let t1 := word32 (st.h + bigSigma1 st.e + shaCh st.e st.f st.g + kw.1 + kw.2)
  let t2 := word32 (bigSigma0 st.a + shaMaj st.a st.b st.c)
  { a := word32 (t1 + t2), b := st.a, c := st.b, d := st.c,
    e := word32 (st.d + t1), f := st.e, g := st.f, h := st.g }

def listToSha8 (l : List Nat) : Sha8 :=
  { a := l.getD 0 0, b := l.getD 1 0, c := l.getD 2 0, d := l.getD 3 0,
    e := l.getD 4 0, f := l.getD 5 0, g := l.getD 6 0, h := l.getD 7 0 }

def sha8ToList (s : Sha8) : List Nat := [s.a, s.b, s.c, s.d, s.e, s.f, s.g, s.h]

/-- Compress one 64-byte block into the running hash words. -/
def compressBlock (hs : List Nat) (block : List Nat) : List Nat :=
  let ws := extendSchedule 48 (bytesToWords block)
  let st0 := listToSha8 hs
  let st := (shaK.zip ws).foldl compressRound st0
  (hs.zip (sha8ToList st)).map (fun p => word32 (p.1 + p.2))

def shaBlocks : Nat → List Nat → List Nat → List Nat
  | 0, _, hs => hs
  | fuel + 1, bytes, hs =>
      match bytes with
      | [] => hs
      | _ => shaBlocks fuel (bytes.drop 64) (compressBlock hs (bytes.take 64))

/-- SHA-256 of a byte list, as 32 bytes. -/
def sha256 (msg : List Nat) : List Nat :=
  let padded := shaPad msg
  wordsToBytes (shaBlocks (padded.length / 64 + 1) padded shaInit)

end RnsCrypto

namespace TextCodec

/-- Rust `&str` values are modelled as lists of characters.  `char::is_whitespace`
for the ASCII whitespace the claims exercise. -/
def isWsp (c : Char) : Bool := c = ' ' || c = '\t' || c = '\n' || c = '\r'

/-- Rust `str::trim`: strip whitespace from both ends. -/
def trimChars (cs : List Char) : List Char :=
  ((cs.dropWhile isWsp).reverse.dropWhile isWsp).reverse

def isAsciiHexDigit (c : Char) : Bool :=
  (('0' ≤ c && c ≤ '9') || ('a' ≤ c && c ≤ 'f') || ('A' ≤ c && c ≤ 'F'))

def hexDigitVal (c : Char) : Nat :=
  if '0' ≤ c && c ≤ '9' then c.toNat - '0'.toNat
  else if 'a' ≤ c && c ≤ 'f' then c.toNat - 'a'.toNat + 10
  else if 'A' ≤ c && c ≤ 'F' then c.toNat - 'A'.toNat + 10
  else 0

/-- Parse an even-length all-hex character list two digits at a time. -/
def hexPairs : List Char → List Nat
  | c1 :: c2 :: rest => (hexDigitVal c1 * 16 + hexDigitVal c2) :: hexPairs rest
  | _ => []

/-- `hex.rs` / manual hex decoding as used by the daemon and the bridge:
every character must be a hex digit and the length even. -/
def hexDecode (cs : List Char) : Option (List Nat) :=
  if cs.length % 2 = 0 && cs.all isAsciiHexDigit then some (hexPairs cs) else none

def hexDigitChars : List Char :=
  List.append ['0', '1', '2', '3', '4', '5', '6', '7']
    ['8', '9', 'a', 'b', 'c', 'd', 'e', 'f']

/-- `encode_hex` from `rpc/mod.rs`: lowercase hex, high nibble first. -/
def encodeHex (bytes : List Nat) : List Char :=
  bytes.foldr
    (fun b acc => hexDigitChars.getD (b >>> 4) '0' :: hexDigitChars.getD (b &&& 15) '0' :: acc)
    []

/-- Value of a standard-alphabet base64 character. -/
def b64Val (c : Char) : Option Nat :=
  if 'A' ≤ c && c ≤ 'Z' then some (c.toNat - 'A'.toNat)
  else if 'a' ≤ c && c ≤ 'z' then some (c.toNat - 'a'.toNat + 26)
  else if '0' ≤ c && c ≤ '9' then some (c.toNat - '0'.toNat + 52)
  else if c = '+' then some 62
  else if c = '/' then some 63
  else none

/-- Decode one base64 quantum.  The final quantum may carry one or two `=`
pads; canonical encoding requires the unused trailing bits to be zero
(the `base64` crate's STANDARD engine rejects non-canonical input). -/
def b64Quantum (c1 c2 c3 c4 : Char) (isLast : Bool) : Option (List Nat) :=
  match b64Val c1, b64Val c2 with
  | some v1, some v2 =>
    if c3 = '=' then
      if isLast && c4 = '=' && v2 &&& 15 = 0 then some [v1 <<< 2 ||| v2 >>> 4] else none
    else
      match b64Val c3 with
      | some v3 =>
        if c4 = '=' then
          if isLast && v3 &&& 3 = 0 then
            some [v1 <<< 2 ||| v2 >>> 4, (v2 &&& 15) <<< 4 ||| v3 >>> 2]
          else none
        else
          match b64Val c4 with
          | some v4 =>
            some [v1 <<< 2 ||| v2 >>> 4, (v2 &&& 15) <<< 4 ||| v3 >>> 2,
              (v3 &&& 3) <<< 6 ||| v4]
          | none => none
      | none => none
  | _, _ => none

def b64Groups : List Char → Option (List Nat)
  | [] => some []
  | c1 :: c2 :: c3 :: c4 :: rest =>
    match b64Quantum c1 c2 c3 c4 (rest = []) with
    | some bytes =>
      match b64Groups rest with
      | some more => some (bytes ++ more)
      | none => none
    | none => none
  | _ => none

/-- The `base64` crate's STANDARD engine: canonical padding (length a
multiple of four), standard alphabet, zero trailing bits. -/
def base64Decode (cs : List Char) : Option (List Nat) :=
  if cs.length % 4 = 0 then b64Groups cs else none

end TextCodec

namespace LxmfBridge

open TextCodec

/-- The JSON values (`serde_json::Value`) flowing through the attachment
normaliser.  Numbers in the claims' inputs are integers; the model keeps
them as `Int`. -/
inductive Json where
  | null : Json
  | bool (b : Bool) : Json
  | num (n : Int) : Json
  | str (s : List Char) : Json
  | arr (items : List Json) : Json
  | obj (fields : List (List Char × Json)) : Json
deriving Repr

/-- `decode_hex_attachment_data` from `lxmf_bridge.rs`. -/
def decodeHexAttachmentData (text : List Char) : Option (List Nat) :=
  if text.length % 2 ≠ 0 || !(text.all isAsciiHexDigit) then none
  else some (hexPairs text)

def stripPfx (pat cs : List Char) : Option (List Char) :=
  if pat.isPrefixOf cs then some (cs.drop pat.length) else none

def hexPfx : List Char := ['h', 'e', 'x', ':']
def hexPfxUp : List Char := ['H', 'E', 'X', ':']
def b64Pfx : List Char := ['b', 'a', 's', 'e', '6', '4', ':']
def b64PfxUp : List Char := ['B', 'A', 'S', 'E', '6', '4', ':']

/-- `decode_attachment_text_data` from `lxmf_bridge.rs`: trim, honour an
explicit `hex:`/`base64:` prefix, otherwise accept text decodable as
exactly one of hex or base64. -/
def decodeAttachmentTextData (text : List Char) : Option (List Nat) :=
  let text := trimChars text
  if text = [] then none
  else
    match (stripPfx hexPfx text).orElse (fun _ => stripPfx hexPfxUp text) with
    | some payload => decodeHexAttachmentData (trimChars payload)
    | none =>
      match (stripPfx b64Pfx text).orElse (fun _ => stripPfx b64PfxUp text) with
      | some payload => base64Decode (trimChars payload)
      | none =>
        match decodeHexAttachmentData text, base64Decode text with
        | some bytes, none => some bytes
        | none, some bytes => some bytes
        | some _, some _ => none
        | none, none => none

/-- `normalize_attachment_data`: byte arrays stay byte arrays (each entry
0..=255), text is decoded, everything else is rejected. -/
def normalizeAttachmentData (v : Json) : Option Json :=
  match v with
  | Json.arr items =>
    match items.mapM (fun item =>
        match item with
        | Json.num n => if 0 ≤ n && n ≤ 255 then some n.toNat else none
        | _ => none) with
    | some bytes => some (Json.arr (bytes.map (fun b => Json.num b)))
    | none => none
  | Json.str text =>
    match decodeAttachmentTextData text with
    | some bytes => some (Json.arr (bytes.map (fun b => Json.num b)))
    | none => none
  | _ => none

def lookupField (fields : List (List Char × Json)) (key : List Char) : Option Json :=
  (fields.find? (fun kv => kv.1 = key)).map (fun kv => kv.2)

/-- `normalize_file_attachment_entry`: accept `[filename, data]` pairs and
`{filename|name, data}` maps. -/
def normalizeFileAttachmentEntry (entry : Json) : Option Json :=
  match entry with
  | Json.arr items =>
    if items.length ≥ 2 then
      match items.getD 0 Json.null with
      | Json.str filename =>
        match normalizeAttachmentData (items.getD 1 Json.null) with
        | some data => some (Json.arr [Json.str filename, data])
        | none => none
      | _ => none
    else none
  | Json.obj map =>
    match (lookupField map (['f', 'i', 'l', 'e', 'n', 'a', 'm', 'e'])).orElse
        (fun _ => lookupField map (['n', 'a', 'm', 'e'])) with
    | some (Json.str filename) =>
      match (lookupField map (['d', 'a', 't', 'a'])).bind normalizeAttachmentData with
      | some data => some (Json.arr [Json.str filename, data])
      | none => none
    | _ => none
  | _ => none

/-- `normalize_file_attachments`: drop undecodable entries; a fully empty
result means the candidate list is rejected. -/
def normalizeFileAttachments (entries : List Json) : Option Json :=
  let normalized := entries.filterMap normalizeFileAttachmentEntry
  if normalized.isEmpty then none else some (Json.arr normalized)

end LxmfBridge

namespace Daemon

open RnsCrypto TextCodec

/-- Rust string operations are modelled over the string's character list
(`String.data`), which the kernel evaluates; `Char.toNat` exposes the
codepoint.  UTF-8 bytes of one character. -/
def utf8Char (c : Char) : List Nat :=
  let n := c.toNat
  if n < 0x80 then [n]
  else if n < 0x800 then [0xC0 ||| (n >>> 6), 0x80 ||| (n &&& 0x3F)]
  else if n < 0x10000 then
    [0xE0 ||| (n >>> 12), 0x80 ||| ((n >>> 6) &&& 0x3F), 0x80 ||| (n &&& 0x3F)]
  else
    [0xF0 ||| (n >>> 18), 0x80 ||| ((n >>> 12) &&& 0x3F),
     0x80 ||| ((n >>> 6) &&& 0x3F), 0x80 ||| (n &&& 0x3F)]

/-- UTF-8 bytes of a string (`str::as_bytes`). -/
def strBytes (s : String) : List Nat :=
  s.toList.foldr (fun c acc => utf8Char c ++ acc) []

/-- `str::trim`. -/
def strTrim (s : String) : String := String.mk (TextCodec.trimChars s.toList)

/-- `str::starts_with`. -/
def strStartsWith (s pat : String) : Bool := pat.toList.isPrefixOf s.toList

/-- `str::to_ascii_lowercase`. -/
def asciiLower (c : Char) : Char :=
  if 'A' ≤ c && c ≤ 'Z' then Char.ofNat (c.toNat + 32) else c

def strToAsciiLower (s : String) : String := String.mk (s.toList.map asciiLower)

/-- `encode_hex` over bytes producing a `String`. -/
def encodeHexStr (bytes : List Nat) : String := String.mk (encodeHex bytes)

def U64_MAX : Nat := 18446744073709551615
def I64_MAX : Int := 9223372036854775807
def I64_MIN : Int := -9223372036854775808

/-- JSON values built by the daemon's `json!` literals.  `f64` literals that
occur in the daemon (progress values) are carried as the exact rationals the
source text denotes; they are only stored and echoed, never computed with. -/
inductive JVal where
  | null : JVal
  | bool (b : Bool) : JVal
  | num (n : Int) : JVal
  | rat (q : Rat) : JVal
  | str (s : String) : JVal
  | arr (items : List JVal) : JVal
  | obj (fields : List (String × JVal)) : JVal
deriving Repr

def optStr : Option String → JVal
  | none => JVal.null
  | some s => JVal.str s

def optInt : Option Int → JVal
  | none => JVal.null
  | some n => JVal.num n

structure RpcEvent where
  event_type : String
  payload : JVal
deriving Repr

/-- `RpcDaemon::push_event`: the bounded (32) FIFO event queue; on overflow
the oldest entry is dropped before appending. -/
def pushEvent (queue : List RpcEvent) (event : RpcEvent) : List RpcEvent :=
  let queue := if queue.length ≥ 32 then queue.tail else queue
  queue ++ [event]

/-- `RpcDaemon::take_event`: pop the front of the queue. -/
def takeEvent (queue : List RpcEvent) : Option RpcEvent × List RpcEvent :=
  match queue with
  | [] => (none, [])
  | e :: rest => (some e, rest)

/-- `clean_optional_text` from `rpc/mod.rs`. -/
def cleanOptionalText : Option String → Option String
  | none => none
  | some s => let t := strTrim s; if t.toList.isEmpty then none else some t

structure PeerRecord where
  peer : String
  last_seen : Int
  name : Option String
  name_source : Option String
  first_seen : Int
  seen_count : Nat
deriving Repr, DecidableEq

/-- Peer table (`HashMap<String, PeerRecord>`) as a lookup function. -/
def Peers : Type := String → Option PeerRecord

/-- `RpcDaemon::upsert_peer`: update-or-insert a peer record.  `seen_count`
uses `u64::saturating_add`. -/
def upsertPeer (peers : Peers) (peer : String) (timestamp : Int)
    (name name_source : Option String) : PeerRecord × Peers :=
  let cleanedName := cleanOptionalText name
  let cleanedNameSource := cleanOptionalText name_source
  match peers peer with
  | some existing =>
    let updated := { existing with
      last_seen := timestamp,
      seen_count := min (existing.seen_count + 1) U64_MAX }
    let updated :=
      match cleanedName with
      | some n => { updated with name := some n, name_source := cleanedNameSource }
      | none => updated
    (updated, fun key => if key = peer then some updated else peers key)
  | none =>
    let record : PeerRecord :=
      { peer := peer, last_seen := timestamp, name := cleanedName,
        name_source := cleanedNameSource, first_seen := timestamp, seen_count := 1 }
    (record, fun key => if key = peer then some record else peers key)

/-- One announce acceptance for claim C5: the arguments `upsert_peer` is
called with. -/
structure AnnounceUpsert where
  timestamp : Int
  name : Option String
  name_source : Option String

def applyUpserts (peers : Peers) (peer : String) (anns : List AnnounceUpsert) : Peers :=
  anns.foldl (fun ps a => (upsertPeer ps peer a.timestamp a.name a.name_source).2) peers

/-- One update step of the stored name pair: replaced only when the
announce supplies a non-empty (cleaned) name. -/
def namePairStep (cur : Option String × Option String) (a : AnnounceUpsert) :
    Option String × Option String :=
  match cleanOptionalText a.name with
  | some n => (some n, cleanOptionalText a.name_source)
  | none => cur

/-- The name pair after a sequence of announces: the insert stores both
cleaned values, later announces update them only when they supply a
name. -/
def expectedNamePair : List AnnounceUpsert → Option String × Option String
  | [] => (none, none)
  | a0 :: rest =>
    rest.foldl namePairStep
      (cleanOptionalText a0.name, cleanOptionalText a0.name_source)

/-- `paper_ingest_seen` (`HashSet<String>`) as a membership function. -/
def SeenSet : Type := String → Bool

structure PaperIngestResult where
  destination : String
  transient_id : String
  duplicate : Bool
  bytes_len : Nat
deriving Repr, DecidableEq

/-- `str::trim_start_matches`: repeatedly strip the pattern from the front.
Structured as fuel recursion; the fuel is the string length. -/
def trimStartMatchesGo (pat : List Char) : Nat → List Char → List Char
  | 0, s => s
  | fuel + 1, s =>
    if !pat.isEmpty && pat.isPrefixOf s then
      trimStartMatchesGo pat fuel (s.drop pat.length)
    else s

def trimStartMatches (s pat : String) : String :=
  String.mk (trimStartMatchesGo pat.toList s.toList.length s.toList)

/-- Modelled from the spec: `first_n_chars` (not under `src/`); the spec says
the reported destination is the first 32 characters of the body. -/
def firstNChars (s : String) (n : Nat) : String := String.mk (s.toList.take n)

/-- The `paper_ingest_uri` arm of `RpcDaemon::handle_rpc`: reject URIs not
starting with `lxm://`, key idempotency on `hex(SHA-256(uri))`, report
duplicates without further state change. -/
def paperIngestUri (seen : SeenSet) (uri : String) :
    Except String PaperIngestResult × SeenSet :=
  if !(strStartsWith uri ("lxm://")) then
    (Except.error ("paper URI must start with lxm://"), seen)
  else
    let transientId := encodeHexStr (sha256 (strBytes uri))
    let dup := seen transientId
    let seen2 : SeenSet :=
      if dup then seen else fun key => if key = transientId then true else seen key
    let body := trimStartMatches uri ("lxm://")
    let destination := firstNChars body 32
    (Except.ok
      { destination := destination, transient_id := transientId,
        duplicate := dup, bytes_len := (strBytes uri).length },
      seen2)

structure TicketRecord where
  destination : String
  ticket : String
  expires_at : Int
deriving Repr, DecidableEq

def TicketCache : Type := String → Option TicketRecord

structure TicketGenerateParams where
  destination : String
  ttl_secs : Option Nat
deriving Repr, DecidableEq

structure TicketGenerateResult where
  ticket : String
  destination : String
  expires_at : Int
  ttl_secs : Nat
deriving Repr, DecidableEq

/-- `i64::to_be_bytes` (the stored `now` is non-negative in every use; the
two's-complement encoding is taken mod 2^64). -/
def i64ToBytesBE (n : Int) : List Nat :=
  RnsCrypto.natToBytesBE 8 (Int.toNat (n % (18446744073709551616 : Int)))

/-- The `ticket_generate` arm of `RpcDaemon::handle_rpc`: validate the TTL
(`i64::try_from` then `checked_add`), derive the ticket from
`SHA-256(destination || now_secs_be)`, store the record. -/
def ticketGenerate (cache : TicketCache) (now : Int) (params : TicketGenerateParams) :
    Except String TicketGenerateResult × TicketCache :=
  let ttlSecs := params.ttl_secs.getD 3600
  if ttlSecs > Int.toNat I64_MAX then
    (Except.error ("ttl_secs exceeds supported range"), cache)
  else
    let ttl : Int := ttlSecs
    let expiresAt := now + ttl
    if expiresAt > I64_MAX ∨ expiresAt < I64_MIN then
      (Except.error ("ttl_secs causes timestamp overflow"), cache)
    else
      let ticket := encodeHexStr (sha256 (strBytes params.destination ++ i64ToBytesBE now))
      let record : TicketRecord :=
        { destination := params.destination, ticket := ticket, expires_at := expiresAt }
      (Except.ok
        { ticket := record.ticket, destination := record.destination,
          expires_at := record.expires_at, ttl_secs := ttlSecs },
        fun key => if key = params.destination then some record else cache key)

/-- The propagation-sync state machine record (fields as used by
`rpc/daemon.rs`; the struct definition itself is not under `src/`). -/
structure PropState where
  sync_state : Nat
  state_name : String
  sync_progress : Rat
  messages_received : Nat
  max_messages : Nat
  selected_node : Option String
  last_sync_started : Option Int
  last_sync_completed : Option Int
  last_sync_error : Option String
deriving Repr

/-- The slice of `RpcDaemon` state read or written by
`request_messages_from_propagation_node`.  Maps queried only through
`contains_key` are lookup functions; `store_announce_peers` is the `peer`
column of `MessagesStore::list_announces` (modelled from the spec's store
contract, the store implementation being out of scope). -/
structure SyncDaemonState where
  outbound_propagation_node : Option String
  propagation_state : PropState
  propagation_payloads : List (String × String)
  peers : Peers
  known_announce_identities : String → Bool
  known_peer_identities : String → Bool
  store_announce_peers : List String
  event_queue : List RpcEvent

/-- `RpcDaemon::emit_propagation_state_event`: snapshot the propagation
state into a `propagation_state` event, push it on the bounded queue and
broadcast it (the returned event is the broadcast copy). -/
def emitPropagationStateEvent (st : SyncDaemonState) : SyncDaemonState × RpcEvent :=
  let s := st.propagation_state
  let event : RpcEvent :=
    { event_type := ("propagation_state"),
      payload := JVal.obj
        [(("state"), JVal.num s.sync_state),
         (("state_name"), JVal.str s.state_name),
         (("progress"), JVal.rat s.sync_progress),
         (("messages_received"), JVal.num s.messages_received),
         (("selected_node"), optStr s.selected_node),
         (("max_messages"), JVal.num s.max_messages)] }
  ({ st with event_queue := pushEvent st.event_queue event }, event)

/-- `normalize_hash_hex` from `rpc/daemon.rs` (the evenness check is on
the character count; for the non-ASCII inputs where that differs from the
byte count, hex decoding fails either way). -/
def normalizeHashHex (input : String) : Option String :=
  let cleaned := strToAsciiLower (strTrim input)
  if cleaned.toList.isEmpty || cleaned.toList.length % 2 ≠ 0 then none
  else
    match hexDecode cleaned.toList with
    | none => none
    | some bytes =>
      if bytes.length = 16 then some (encodeHexStr bytes)
      else if bytes.length = 32 then some (encodeHexStr (bytes.take 16))
      else none

/-- `RpcDaemon::knows_destination`: peers, either identity map, or the
first 512 stored announces. -/
def knowsDestination (st : SyncDaemonState) (destination : String) : Bool :=
  (st.peers destination).isSome ||
  st.known_announce_identities destination ||
  st.known_peer_identities destination ||
  (st.store_announce_peers.take 512).any (fun peer => peer = destination)

/-- Modelled from the spec: public-key derivation for a 64-byte private key
(`identity.rs` is not under `src/`).  §3: `address_hash =
SHA-256(x25519_pub || ed25519_pub)[0..16]`; the curve operations deriving
the public halves are external and opaque, modelled as tagged hashes.  No
claim inspects the value. -/
def addressHashOfPrivBytes (bytes : List Nat) : List Nat :=
  (sha256 (sha256 (1 :: bytes.take 32) ++ sha256 (2 :: bytes.drop 32))).take 16

/-- `source_hash_from_private_key_hex`: hex-decode, build a
`PrivateIdentity` (fails unless 64 bytes), return the hex address hash. -/
def sourceHashFromPrivateKeyHex (privateKeyHex : String) : Except String String :=
  match hexDecode (strTrim privateKeyHex).toList with
  | none => Except.error ("source_private_key must be hex-encoded")
  | some bytes =>
    if bytes.length = 64 then Except.ok (encodeHexStr (addressHashOfPrivBytes bytes))
    else Except.error ("source_private_key is invalid")

def insertSorted (x : String) : List String → List String
  | [] => [x]
  | y :: ys => if decide (y < x) then y :: insertSorted x ys else x :: y :: ys

/-- `Vec::sort` on the collected payload keys (ascending `String` order;
UTF-8 byte order and codepoint order coincide). -/
def sortStrings (l : List String) : List String := l.foldr insertSorted []

def removeAssoc (l : List (String × String)) (key : String) : List (String × String) :=
  l.filter (fun kv => kv.1 ≠ key)

def lookupAssoc (l : List (String × String)) (key : String) : Option String :=
  (l.find? (fun kv => kv.1 = key)).map (fun kv => kv.2)

/-- `RpcDaemon::request_messages_from_propagation_node`.  The method never
performs network I/O: every branch only mutates in-memory state and emits
`propagation_state` events; the "sync" consumes locally stored propagation
payloads.  `now` stands for `now_i64()`.  Returns the RPC result, the new
state, and the events broadcast during the call. -/
def requestMessagesFromPropagationNode (st : SyncDaemonState) (now completedNow : Int)
    (maxMessages : Nat) (identityPrivateKey : Option String) :
    Except String JVal × SyncDaemonState × List RpcEvent :=
  match cleanOptionalText identityPrivateKey with
  | some raw =>
    match sourceHashFromPrivateKeyHex raw with
    | Except.error e => (Except.error e, st, [])
    | Except.ok _ => requestMessagesBody st now completedNow maxMessages
  | none => requestMessagesBody st now completedNow maxMessages
where
  requestMessagesBody (st : SyncDaemonState) (now completedNow : Int) (maxMessages : Nat) :
      Except String JVal × SyncDaemonState × List RpcEvent :=
    match st.outbound_propagation_node with
    | none =>
      let st := { st with propagation_state :=
        { st.propagation_state with
          sync_state := 0, state_name := ("idle"), sync_progress := 0,
          messages_received := 0, max_messages := maxMessages,
          selected_node := none, last_sync_started := some now,
          last_sync_completed := some now,
          last_sync_error := some ("No propagation node configured") } }
      let (st, ev) := emitPropagationStateEvent st
      (Except.ok (JVal.obj
        [(("success"), JVal.bool false),
         (("error"), JVal.str ("No propagation node configured")),
         (("errorCode"), JVal.str ("NO_PROPAGATION_NODE")),
         (("state"), JVal.num 0),
         (("state_name"), JVal.str ("idle")),
         (("progress"), JVal.rat 0),
         (("messages_received"), JVal.num 0)]), st, [ev])
    | some selectedNode =>
      let selectedLookup := (normalizeHashHex selectedNode).getD selectedNode
      if !(knowsDestination st selectedLookup) then
        let st := { st with propagation_state :=
          { st.propagation_state with
            sync_state := 0xF0, state_name := ("no_path"), sync_progress := 0,
            messages_received := 0, max_messages := maxMessages,
            selected_node := some selectedNode, last_sync_started := some now,
            last_sync_completed := some now,
            last_sync_error := some ("No path known for propagation node") } }
        let (st, ev) := emitPropagationStateEvent st
        (Except.ok (JVal.obj
          [(("success"), JVal.bool false),
           (("error"), JVal.str ("No path known for propagation node")),
           (("errorCode"), JVal.str ("NO_PATH")),
           (("state"), JVal.num 0xF0),
           (("state_name"), JVal.str ("no_path")),
           (("progress"), JVal.rat 0),
           (("messages_received"), JVal.num 0),
           (("selected_node"), JVal.str selectedNode),
           (("max_messages"), JVal.num maxMessages)]), st, [ev])
      else
        let st := { st with propagation_state :=
          { st.propagation_state with
            sync_state := 1, state_name := ("path_requested"), sync_progress := 0,
            messages_received := 0, max_messages := maxMessages,
            selected_node := some selectedNode, last_sync_started := some now,
            last_sync_error := none } }
        let (st, ev1) := emitPropagationStateEvent st
        let st := { st with propagation_state :=
          { st.propagation_state with
            sync_state := 2, state_name := ("link_establishing"),
            sync_progress := (15 : Rat) / 100 } }
        let (st, ev2) := emitPropagationStateEvent st
        let st := { st with propagation_state :=
          { st.propagation_state with
            sync_state := 3, state_name := ("link_established"),
            sync_progress := (35 : Rat) / 100 } }
        let (st, ev3) := emitPropagationStateEvent st
        let st := { st with propagation_state :=
          { st.propagation_state with
            sync_state := 4, state_name := ("request_sent"),
            sync_progress := (55 : Rat) / 100 } }
        let (st, ev4) := emitPropagationStateEvent st
        let keys := (sortStrings (st.propagation_payloads.map
          (fun kv => kv.1))).take maxMessages
        let collected := keys.foldl
          (fun (acc : List JVal × List (String × String)) transientId =>
            match lookupAssoc acc.2 transientId with
            | some payloadHex =>
              (acc.1 ++ [JVal.obj
                [(("transient_id"), JVal.str transientId),
                 (("payload_hex"), JVal.str payloadHex)]],
               removeAssoc acc.2 transientId)
            | none => acc)
          ([], st.propagation_payloads)
        let messages := collected.1
        let st := { st with propagation_payloads := collected.2 }
        let st := { st with propagation_state :=
          { st.propagation_state with
            sync_state := 5, state_name := ("receiving"),
            sync_progress := (90 : Rat) / 100,
            messages_received := messages.length } }
        let (st, ev5) := emitPropagationStateEvent st
        let st := { st with propagation_state :=
          { st.propagation_state with
            sync_state := 7, state_name := ("complete"), sync_progress := 1,
            last_sync_completed := some completedNow } }
        let state := st.propagation_state
        let (st, ev6) := emitPropagationStateEvent st
        (Except.ok (JVal.obj
          [(("success"), JVal.bool true),
           (("state"), JVal.num state.sync_state),
           (("state_name"), JVal.str state.state_name),
           (("progress"), JVal.rat state.sync_progress),
           (("messages_received"), JVal.num state.messages_received),
           (("selected_node"), optStr state.selected_node),
           (("max_messages"), JVal.num state.max_messages),
           (("last_sync_started"), optInt state.last_sync_started),
           (("last_sync_completed"), optInt state.last_sync_completed),
           (("messages"), JVal.arr messages)]), st, [ev1, ev2, ev3, ev4, ev5, ev6])

end Daemon

namespace Dest

open RnsCrypto

inductive RnsError where
  | packetError : RnsError
  | outOfMemory : RnsError
  | cryptoError : RnsError
  | incorrectSignature : RnsError
  | invalidArgument : RnsError
deriving Repr, DecidableEq

def PUBLIC_KEY_LENGTH : Nat := 32
def NAME_HASH_LENGTH : Nat := 10
def RAND_HASH_LENGTH : Nat := 10
def SIGNATURE_LENGTH : Nat := 64
def RATCHET_LENGTH : Nat := 32

/-- `MIN_ANNOUNCE_DATA_LENGTH = 2*32 + 10 + 10 + 64`. -/
def MIN_ANNOUNCE_DATA_LENGTH : Nat :=
  PUBLIC_KEY_LENGTH * 2 + NAME_HASH_LENGTH + RAND_HASH_LENGTH + SIGNATURE_LENGTH

/-- Modelled from the spec: `PACKET_MDU` lives in `packet.rs`, which is not
under `src/`; spec section 3 gives about 464 bytes.  Every claim using it
is robust to the exact figure. -/
def PACKET_MDU : Nat := 464

inductive PacketType where
  | data : PacketType
  | announce : PacketType
  | linkRequest : PacketType
  | proof : PacketType
deriving Repr, DecidableEq

inductive DestinationType where
  | single : DestinationType
  | group : DestinationType
  | plain : DestinationType
  | link : DestinationType
deriving Repr, DecidableEq

inductive HeaderType where
  | type1 : HeaderType
  | type2 : HeaderType
deriving Repr, DecidableEq

inductive IfacFlag where
  | openFlag : IfacFlag
  | authenticated : IfacFlag
deriving Repr, DecidableEq

inductive PropagationType where
  | broadcast : PropagationType
  | transport : PropagationType
deriving Repr, DecidableEq

inductive PacketContext where
  | noContext : PacketContext
  | resource : PacketContext
  | resourceAdvrtisement : PacketContext
  | resourceRequest : PacketContext
  | resourceHashUpdate : PacketContext
  | resourceProof : PacketContext
  | resourceInitiatorCancel : PacketContext
  | resourceReceiverCancel : PacketContext
  | keepAlive : PacketContext
  | pathResponse : PacketContext
  | linkIdentify : PacketContext
  | linkClose : PacketContext
deriving Repr, DecidableEq

/-- Modelled from the spec: packet header (section 4.3); `packet.rs` is not
under `src/`.  Only the fields the embedded code reads are exercised. -/
structure Header where
  ifac_flag : IfacFlag
  header_type : HeaderType
  propagation_type : PropagationType
  destination_type : DestinationType
  packet_type : PacketType
  hops : Nat
deriving Repr, DecidableEq

/-- Modelled from the spec: packet record (section 3); data is capped at
`PACKET_MDU` by the `PacketDataBuffer` write operations below. -/
structure Packet where
  header : Header
  ifac : Option (List Nat)
  destination : List Nat
  transport : Option (List Nat)
  context : PacketContext
  data : List Nat
deriving Repr, DecidableEq

/-- `PacketDataBuffer::write` / `chain_write`: append, failing once the
buffer would exceed its capacity. -/
def bufWrite (buf bytes : List Nat) : Except RnsError (List Nat) :=
  if buf.length + bytes.length ≤ PACKET_MDU then Except.ok (buf ++ bytes)
  else Except.error RnsError.outOfMemory

/-- `chain_safe_write`: append, silently dropping the write on overflow. -/
def bufSafeWrite (buf bytes : List Nat) : List Nat :=
  if buf.length + bytes.length ≤ PACKET_MDU then buf ++ bytes else buf

/-- Modelled from the spec: identities (`identity.rs` is not under `src/`).
An identity is its X25519 public key and Ed25519 verifying key bytes
(section 3); Ed25519 is idealised as a deterministic scheme in which the
unique valid signature for `(verifying_key, message)` is a 64-byte tag
derived by hashing, which preserves exactly the sign/verify interface the
announce path uses. -/
structure Identity where
  pubKey : List Nat
  verKey : List Nat
deriving Repr, DecidableEq

structure PrivateIdentity where
  pubKey : List Nat
  verKey : List Nat
deriving Repr, DecidableEq

def PrivateIdentity.asIdentity (id : PrivateIdentity) : Identity :=
  { pubKey := id.pubKey, verKey := id.verKey }

/-- Modelled from the spec: the unique valid Ed25519 signature of a message
under a verifying key, as a 64-byte hash tag. -/
def edSign (verKey msg : List Nat) : List Nat :=
  sha256 ((1 :: verKey) ++ msg) ++ sha256 ((2 :: verKey) ++ msg)

/-- `Identity::verify`. -/
def edVerify (identity : Identity) (msg sig : List Nat) : Bool :=
  decide (sig = edSign identity.verKey msg)

/-- Section 3: `identity address hash = SHA-256(x25519_pub || ed25519_pub)[0..16]`. -/
def identityAddressHashSlice (pubKey verKey : List Nat) : List Nat :=
  (sha256 (pubKey ++ verKey)).take 16

/-- A `DestinationName` is carried as its 32-byte SHA-256 hash;
`new_from_hash_slice` zero-extends a shorter slice. -/
def nameFromHashSlice (slice : List Nat) : List Nat :=
  slice.take 32 ++ List.replicate (32 - slice.length) 0

/-- `create_address_hash`: 16-byte truncation of
`SHA-256(name_hash[0..10] || identity_address_hash[0..16])`. -/
def createAddressHash (pubKey verKey nameHash : List Nat) : List Nat :=
  (sha256 (nameHash.take 10 ++ identityAddressHashSlice pubKey verKey)).take 16

/-- `Destination::<PrivateIdentity, Input, Single>::announce`.  The
caller's rng draw (`Hash::new_from_rand`) is the `randHash` parameter;
the announce signs `address_hash || pub || ver || name[0..10] ||
rand[0..10] || app_data` and ships `pub || ver || name[0..10] ||
rand[0..10] || signature || app_data`. -/
def announce (id : PrivateIdentity) (nameHash randHash : List Nat)
    (appData : Option (List Nat)) : Except RnsError Packet := do
  let rand10 := randHash.take RAND_HASH_LENGTH
  let addressHash := createAddressHash id.pubKey id.verKey nameHash
  let signBuf := bufSafeWrite [] addressHash
  let signBuf := bufSafeWrite signBuf id.pubKey
  let signBuf := bufSafeWrite signBuf id.verKey
  let signBuf := bufSafeWrite signBuf (nameHash.take NAME_HASH_LENGTH)
  let signBuf := bufSafeWrite signBuf rand10
  let signBuf ← match appData with
    | some data => bufWrite signBuf data
    | none => Except.ok signBuf
  let signature := edSign id.verKey signBuf
  let outBuf := bufSafeWrite [] id.pubKey
  let outBuf := bufSafeWrite outBuf id.verKey
  let outBuf := bufSafeWrite outBuf (nameHash.take NAME_HASH_LENGTH)
  let outBuf := bufSafeWrite outBuf rand10
  let outBuf := bufSafeWrite outBuf signature
  let outBuf ← match appData with
    | some data => bufWrite outBuf data
    | none => Except.ok outBuf
  Except.ok
    { header :=
        { ifac_flag := IfacFlag.openFlag, header_type := HeaderType.type1,
          propagation_type := PropagationType.broadcast,
          destination_type := DestinationType.single,
          packet_type := PacketType.announce, hops := 0 },
      ifac := none, destination := addressHash, transport := none,
      context := PacketContext.noContext, data := outBuf }

structure OutputDestination where
  identity : Identity
  nameHash : List Nat
  addressHash : List Nat
deriving Repr, DecidableEq

structure AnnounceInfo where
  outputDestination : OutputDestination
  appData : List Nat
  ratchet : Option (List Nat)
deriving Repr, DecidableEq

/-- The `verify_announce` closure inside `DestinationAnnounce::validate`:
rebuild the signed buffer (destination hash first) and check the
signature. -/
def verifyAnnounce (destination pubKey verKey nameHash10 randHash10 : List Nat)
    (ratchet : Option (List Nat)) (sig appData : List Nat) :
    Except RnsError Unit := do
  let signed ← bufWrite [] destination
  let signed ← bufWrite signed pubKey
  let signed ← bufWrite signed verKey
  let signed ← bufWrite signed nameHash10
  let signed ← bufWrite signed randHash10
  let signed ← match ratchet with
    | some bytes => bufWrite signed bytes
    | none => Except.ok signed
  let signed ← if appData.isEmpty then Except.ok signed else bufWrite signed appData
  if sig.length = SIGNATURE_LENGTH then
    if edVerify { pubKey := pubKey, verKey := verKey } signed sig then Except.ok ()
    else Except.error RnsError.incorrectSignature
  else Except.error RnsError.cryptoError

/-- `DestinationAnnounce::validate`.  A destination/recomputed-hash mismatch
is only logged (`eprintln!`), so it has no effect here.  The ratchet parse
is attempted first whenever at least `64 + 32` bytes remain; on any
failure the no-ratchet parse is tried. -/
def validate (packet : Packet) : Except RnsError AnnounceInfo :=
  if packet.header.packet_type ≠ PacketType.announce then
    Except.error RnsError.packetError
  else
    let d := packet.data
    if d.length < MIN_ANNOUNCE_DATA_LENGTH then Except.error RnsError.outOfMemory
    else
      let pubKey := d.take 32
      let verKey := (d.drop 32).take 32
      let nameHash10 := (d.drop 64).take 10
      let randHash10 := (d.drop 74).take 10
      let remaining := d.length - 84
      let rebuilt : OutputDestination :=
        { identity := { pubKey := pubKey, verKey := verKey },
          nameHash := nameFromHashSlice nameHash10,
          addressHash := createAddressHash pubKey verKey (nameFromHashSlice nameHash10) }
      if remaining < SIGNATURE_LENGTH then Except.error RnsError.outOfMemory
      else
        let fallback : Except RnsError AnnounceInfo :=
          let sig := (d.drop 84).take 64
          let appData := d.drop 148
          match verifyAnnounce packet.destination pubKey verKey nameHash10
              randHash10 none sig appData with
          | Except.ok _ =>
            Except.ok { outputDestination := rebuilt, appData := appData, ratchet := none }
          | Except.error e => Except.error e
        if remaining ≥ SIGNATURE_LENGTH + RATCHET_LENGTH then
          let ratchet := (d.drop 84).take 32
          let sig := (d.drop 116).take 64
          let appData := d.drop 180
          match verifyAnnounce packet.destination pubKey verKey nameHash10
              randHash10 (some ratchet) sig appData with
          | Except.ok _ =>
            Except.ok
              { outputDestination := rebuilt
                appData := appData
                ratchet := some ratchet }
          | Except.error _ => fallback
        else fallback

end Dest

namespace Res

open RnsCrypto Dest

def WINDOW : Nat := 4
def MAPHASH_LEN : Nat := 4
def RANDOM_HASH_SIZE : Nat := 4
def ADVERTISEMENT_OVERHEAD : Nat := 134
def HASHMAP_MAX_LEN : Nat := (PACKET_MDU - ADVERTISEMENT_OVERHEAD) / MAPHASH_LEN
def METADATA_MAX_SIZE : Nat := 16 * 1024 * 1024 - 1

def FLAG_ENCRYPTED : Nat := 0x01
def FLAG_COMPRESSED : Nat := 0x02
def FLAG_SPLIT : Nat := 0x04
def FLAG_REQUEST : Nat := 0x08
def FLAG_RESPONSE : Nat := 0x10
def FLAG_METADATA : Nat := 0x20

inductive ResourceStatus where
  | noStatus : ResourceStatus
  | advertised : ResourceStatus
  | transferring : ResourceStatus
  | awaitingProof : ResourceStatus
  | complete : ResourceStatus
  | failed : ResourceStatus
deriving Repr, DecidableEq

/-- `resource.rs` only touches the link through `link.id()`,
`Link::encrypt` and `Link::decrypt` (`link.rs` is not under `src/`), so
the embedding is parametric in this triple. -/
structure LinkModel where
  linkId : List Nat
  encrypt : List Nat → Option (List Nat)
  decrypt : List Nat → Option (List Nat)

/-- Modelled from the spec: a concrete `LinkModel` with the
authenticated-cipher shape of section 4.2 (16-byte IV framing, 32-byte MAC
trailer), used to evaluate the resource pipeline on concrete inputs. -/
def trivLink : LinkModel :=
  { linkId := List.replicate 16 0xAB
    encrypt := fun plain => some (List.replicate 16 0 ++ plain ++ List.replicate 32 0)
    decrypt := fun cipher =>
      if cipher.length ≥ 48 then some ((cipher.drop 16).take (cipher.length - 48))
      else none }

structure ResourceAdvertisement where
  transfer_size : Nat
  data_size : Nat
  parts : Nat
  hash : List Nat
  random_hash : List Nat
  original_hash : List Nat
  segment_index : Nat
  total_segments : Nat
  request_id : Option Nat
  flags : Nat
  hashmap : List Nat
deriving Repr, DecidableEq

structure ResourceRequest where
  hashmap_exhausted : Bool
  last_map_hash : Option (List Nat)
  resource_hash : List Nat
  requested_hashes : List (List Nat)
deriving Repr, DecidableEq

structure ResourceProof where
  resource_hash : List Nat
  proof : List Nat
deriving Repr, DecidableEq

/-- `ResourceProof::encode`. -/
def ResourceProof.encode (p : ResourceProof) : List Nat :=
  p.resource_hash ++ p.proof

/-- `map_hash`: `SHA-256(part || random_hash)[0..4]`. -/
def mapHash (part randomHash : List Nat) : List Nat :=
  (sha256 (part ++ randomHash)).take MAPHASH_LEN

/-- `slice::chunks` (fuel recursion; the chunk size is always
`PACKET_MDU`, never zero). -/
def chunksGo (size : Nat) : Nat → List Nat → List (List Nat)
  | 0, _ => []
  | fuel + 1, l => if l.isEmpty then [] else l.take size :: chunksGo size fuel (l.drop size)

def chunks (size : Nat) (l : List Nat) : List (List Nat) :=
  chunksGo size (l.length + 1) l

/-- `slice_hashmap_segment`: the flat bytes of one `HASHMAP_MAX_LEN`-sized
window of map hashes. -/
def sliceHashmapSegment (hashes : List (List Nat)) (segment : Nat) : List Nat :=
  ((hashes.drop (segment * HASHMAP_MAX_LEN)).take HASHMAP_MAX_LEN).foldr
    (fun h acc => h ++ acc) []

/-- `build_link_packet`.  The header fields beyond the destination and
packet type come from `Header::default()` (packet.rs, modelled from the
spec as the type-1 broadcast defaults). -/
def buildLinkPacket (lm : LinkModel) (packetType : PacketType)
    (context : PacketContext) (payload : List Nat) : Packet :=
  { header :=
      { ifac_flag := IfacFlag.openFlag, header_type := HeaderType.type1,
        propagation_type := PropagationType.broadcast,
        destination_type := DestinationType.link,
        packet_type := packetType, hops := 0 },
    ifac := none, destination := lm.linkId, transport := none,
    context := context, data := payload }

structure ResourceSender where
  resource_hash : List Nat
  random_hash : List Nat
  original_hash : List Nat
  parts : List (List Nat)
  map_hashes : List (List Nat)
  expected_proof : List Nat
  data_size : Nat
  has_metadata : Bool
  metadata : Option (List Nat)
  status : ResourceStatus
deriving Repr, DecidableEq

/-- `ResourceSender::new`.  The two `OsRng` draws (the 4-byte
`random_hash` salt and the fresh 4-byte prefix) are parameters.  The
3-byte metadata length prefix is `u32::to_be_bytes()[1..]`, which for the
checked range (< 2^24) is the 3-byte big-endian length. -/
def ResourceSender.new (lm : LinkModel) (randomHash prefixRandom : List Nat)
    (data : List Nat) (metadata : Option (List Nat)) :
    Except RnsError ResourceSender := do
  let metadataPfx ← match metadata with
    | some payload =>
      if payload.length > METADATA_MAX_SIZE then Except.error RnsError.invalidArgument
      else Except.ok (natToBytesBE 3 payload.length ++ payload)
    | none => Except.ok []
  let combined := metadataPfx ++ data
  let dataSize := combined.length
  let resourceHash := sha256 (combined ++ randomHash)
  let expectedProof := sha256 (combined ++ resourceHash)
  let toEncrypt := prefixRandom ++ combined
  match lm.encrypt toEncrypt with
  | none => Except.error RnsError.cryptoError
  | some cipherText =>
    let parts := chunks PACKET_MDU cipherText
    let mapHashes := parts.map (fun part => mapHash part randomHash)
    Except.ok
      { resource_hash := resourceHash, random_hash := randomHash,
        original_hash := resourceHash, parts := parts, map_hashes := mapHashes,
        expected_proof := expectedProof, data_size := dataSize,
        has_metadata := metadata.isSome, metadata := metadata,
        status := ResourceStatus.advertised }

/-- `ResourceSender::advertisement`. -/
def ResourceSender.advertisement (s : ResourceSender) (segment : Nat) :
    ResourceAdvertisement :=
  let flags := FLAG_ENCRYPTED ||| (if s.has_metadata then FLAG_METADATA else 0)
  { transfer_size := (s.parts.map (fun part => part.length)).sum,
    data_size := s.data_size, parts := s.parts.length, hash := s.resource_hash,
    random_hash := s.random_hash, original_hash := s.original_hash,
    segment_index := segment + 1, total_segments := 1, request_id := none,
    flags := flags, hashmap := sliceHashmapSegment s.map_hashes segment }

/-- `ResourceSender::handle_proof`: accept only the matching resource hash
and the exact expected proof; success marks the transfer `Complete`. -/
def ResourceSender.handleProof (s : ResourceSender) (proof : ResourceProof) :
    ResourceSender × Bool :=
  if proof.resource_hash ≠ s.resource_hash then (s, false)
  else if proof.proof = s.expected_proof then
    ({ s with status := ResourceStatus.complete }, true)
  else (s, false)

structure ResourceReceiver where
  resource_hash : List Nat
  random_hash : List Nat
  parts : List (Option (List Nat))
  hashmap : List (Option (List Nat))
  received : Nat
  encrypted : Bool
  compressed : Bool
  has_metadata : Bool
  status : ResourceStatus
deriving Repr, DecidableEq

def applyHashmapSegmentGo (segment : Nat) (bytes : List Nat) :
    Nat → Nat → List (Option (List Nat)) → List (Option (List Nat))
  | 0, _, hm => hm
  | fuel + 1, i, hm =>
    let entry := (bytes.drop (i * MAPHASH_LEN)).take MAPHASH_LEN
    let idx := segment * HASHMAP_MAX_LEN + i
    let hm := if idx < hm.length then hm.set idx (some entry) else hm
    applyHashmapSegmentGo segment bytes fuel (i + 1) hm

/-- `ResourceReceiver::apply_hashmap_segment`. -/
def ResourceReceiver.applyHashmapSegment (r : ResourceReceiver) (segment : Nat)
    (bytes : List Nat) : ResourceReceiver :=
  { r with hashmap :=
      applyHashmapSegmentGo segment bytes (bytes.length / MAPHASH_LEN) 0 r.hashmap }

/-- `ResourceReceiver::new`. -/
def ResourceReceiver.new (adv : ResourceAdvertisement) : ResourceReceiver :=
  let receiver : ResourceReceiver :=
    { resource_hash := adv.hash, random_hash := adv.random_hash,
      parts := List.replicate adv.parts none,
      hashmap := List.replicate adv.parts none, received := 0,
      encrypted := adv.flags &&& FLAG_ENCRYPTED = FLAG_ENCRYPTED,
      compressed := adv.flags &&& FLAG_COMPRESSED = FLAG_COMPRESSED,
      has_metadata := adv.flags &&& FLAG_METADATA = FLAG_METADATA,
      status := ResourceStatus.advertised }
  receiver.applyHashmapSegment (adv.segment_index - 1) adv.hashmap

/-- The loop body of `ResourceReceiver::build_request`; `parts` always has
the same length as `hashmap` on reachable states. -/
def buildRequestGo : List (Option (List Nat)) → List (Option (List Nat)) →
    List (List Nat) → Option (List Nat) →
    List (List Nat) × Option (List Nat) × Bool
  | [], _, requested, lastKnown => (requested, lastKnown, false)
  | none :: _, _, requested, lastKnown => (requested, lastKnown, true)
  | some h :: hmRest, partsList, requested, _ =>
    let lastKnown := some h
    match partsList with
    | none :: pRest =>
      let requested := requested ++ [h]
      if requested.length ≥ WINDOW then (requested, lastKnown, false)
      else buildRequestGo hmRest pRest requested lastKnown
    | some _ :: pRest => buildRequestGo hmRest pRest requested lastKnown
    | [] => buildRequestGo hmRest [] requested lastKnown

/-- `ResourceReceiver::build_request`. -/
def ResourceReceiver.buildRequest (r : ResourceReceiver) : ResourceRequest :=
  let result := buildRequestGo r.hashmap r.parts [] none
  { hashmap_exhausted := result.2.2,
    last_map_hash := if result.2.2 then result.2.1 else none,
    resource_hash := r.resource_hash,
    requested_hashes := result.1 }

inductive PartOutcome where
  | noMatch : PartOutcome
  | incomplete : PartOutcome
  | complete (proofPacket : Packet) (data : List Nat)
      (metadata : Option (List Nat)) : PartOutcome
deriving Repr, DecidableEq

def optionsJoined : List (Option (List Nat)) → Option (List Nat)
  | [] => some []
  | none :: _ => none
  | some bytes :: rest =>
    match optionsJoined rest with
    | some more => some (bytes ++ more)
    | none => none

/-- `ResourceReceiver::handle_part`: look the part up by map hash, store
it, and on the final part decrypt, strip the 4-byte random prefix, split
metadata, recompute the resource hash over the remaining data and — only
if it matches — emit the proof packet. -/
def ResourceReceiver.handlePart (r : ResourceReceiver) (lm : LinkModel)
    (part : List Nat) : ResourceReceiver × PartOutcome :=
  let hash := mapHash part r.random_hash
  match r.hashmap.findIdx? (fun entry => entry = some hash) with
  | none => (r, PartOutcome.noMatch)
  | some index =>
    let r :=
      if r.parts.getD index none = none then
        { r with parts := r.parts.set index (some part), received := r.received + 1 }
      else r
    if r.received = r.parts.length && !r.parts.isEmpty then
      match optionsJoined r.parts with
      | none => (r, PartOutcome.incomplete)
      | some stream =>
        let plainResult : Option (List Nat) :=
          if r.encrypted then lm.decrypt stream else some stream
        match plainResult with
        | none => ({ r with status := ResourceStatus.failed }, PartOutcome.incomplete)
        | some plain =>
          let payload :=
            if plain.length > RANDOM_HASH_SIZE then plain.drop RANDOM_HASH_SIZE
            else []
          let split :=
            if r.has_metadata && payload.length ≥ 3 then
              let size := (payload.getD 0 0) <<< 16 ||| (payload.getD 1 0) <<< 8 |||
                payload.getD 2 0
              if payload.length ≥ 3 + size then
                (some ((payload.drop 3).take size), (payload.drop (3 + size)))
              else (none, payload)
            else (none, payload)
          let metadata := split.1
          let dataPayload := split.2
          let computed := sha256 (dataPayload ++ r.random_hash)
          if computed = r.resource_hash then
            let proof := sha256 (dataPayload ++ r.resource_hash)
            let proofPayload : ResourceProof :=
              { resource_hash := r.resource_hash, proof := proof }
            ({ r with status := ResourceStatus.complete },
             PartOutcome.complete
               (buildLinkPacket lm PacketType.proof PacketContext.resourceProof
                 proofPayload.encode)
               dataPayload metadata)
          else ({ r with status := ResourceStatus.failed }, PartOutcome.incomplete)
    else (r, PartOutcome.incomplete)

/-- `ResourceManager::start_send`, up to the msgpack packing of the
advertisement (`rmp_serde` is external): build the sender, remember it,
emit the segment-0 advertisement. -/
def startSend (lm : LinkModel) (randomHash prefixRandom : List Nat)
    (data : List Nat) (metadata : Option (List Nat)) :
    Except RnsError (List Nat × ResourceAdvertisement × ResourceSender) := do
  let sender ← ResourceSender.new lm randomHash prefixRandom data metadata
  Except.ok (sender.resource_hash, sender.advertisement 0, sender)

end Res

namespace Daemon

/-- Empty peer table. -/
def emptyPeers : Peers := fun _ => none

/-- A bare announce (no name) used in concrete evaluations. -/
def cAnn : AnnounceUpsert := { timestamp := 0, name := none, name_source := none }

/-- A concrete daemon state with no outbound propagation node. -/
def st0 : SyncDaemonState :=
  { outbound_propagation_node := none,
    propagation_state :=
      { sync_state := 0, state_name := (""), sync_progress := 0,
        messages_received := 0, max_messages := 0, selected_node := none,
        last_sync_started := none, last_sync_completed := none,
        last_sync_error := none },
    propagation_payloads := [],
    peers := emptyPeers,
    known_announce_identities := fun _ => false,
    known_peer_identities := fun _ => false,
    store_announce_peers := [],
    event_queue := [] }

/-- Empty idempotency set / ticket cache. -/
def emptySeen : SeenSet := fun _ => false

def emptyTickets : TicketCache := fun _ => none

end Daemon

namespace Dest

/-- Concrete announce inputs for evaluating claim C2. -/
def cPriv : PrivateIdentity :=
  { pubKey := List.replicate 32 3, verKey := List.replicate 32 5 }

def cName : List Nat := List.replicate 32 7

def cRand : List Nat := List.replicate 32 9

def defaultPacket : Packet :=
  { header :=
      { ifac_flag := IfacFlag.openFlag, header_type := HeaderType.type1,
        propagation_type := PropagationType.broadcast,
        destination_type := DestinationType.single,
        packet_type := PacketType.data, hops := 0 },
    ifac := none, destination := [], transport := none,
    context := PacketContext.noContext, data := [] }

/-- The packet the concrete announce produces. -/
def cPkt : Packet :=
  match announce cPriv cName cRand none with
  | Except.ok p => p
  | Except.error _ => defaultPacket

/-- A forged announce for claim C10: signed over a destination field that
is not the address hash recomputed from the embedded keys. -/
def forgedPub : List Nat := List.replicate 32 3

def forgedVer : List Nat := List.replicate 32 5

def forgedName10 : List Nat := List.replicate 10 7

def forgedRand10 : List Nat := List.replicate 10 9

def forgedDest : List Nat := List.replicate 16 0

def forgedSig : List Nat :=
  edSign forgedVer (forgedDest ++ forgedPub ++ forgedVer ++ forgedName10 ++ forgedRand10)

def forgedData : List Nat :=
  forgedPub ++ forgedVer ++ forgedName10 ++ forgedRand10 ++ forgedSig

def forgedPkt : Packet :=
  { header :=
      { ifac_flag := IfacFlag.openFlag, header_type := HeaderType.type1,
        propagation_type := PropagationType.broadcast,
        destination_type := DestinationType.single,
        packet_type := PacketType.announce, hops := 0 },
    ifac := none, destination := forgedDest, transport := none,
    context := PacketContext.noContext, data := forgedData }

/-- The announce info `validate` rebuilds for the forged packet. -/
def forgedInfo : AnnounceInfo :=
  { outputDestination :=
      { identity := { pubKey := forgedPub, verKey := forgedVer },
        nameHash := nameFromHashSlice forgedName10,
        addressHash := createAddressHash forgedPub forgedVer (nameFromHashSlice forgedName10) },
    appData := [], ratchet := none }

end Dest

namespace Res

/-- Placeholder sender used only to destructure `Except` values in
concrete evaluations. -/
def dummySender : ResourceSender :=
  { resource_hash := [], random_hash := [], original_hash := [], parts := [],
    map_hashes := [], expected_proof := [], data_size := 0,
    has_metadata := false, metadata := none, status := ResourceStatus.noStatus }

def c1RandomHash : List Nat := [9, 9, 9, 9]

def c1PrefixRandom : List Nat := [7, 7, 7, 7]

def c1Data : List Nat := [1]

def c1Meta : List Nat := [2]

/-- The concrete metadata-carrying sender of claim C1's failing input. -/
def c1Sender : ResourceSender :=
  match ResourceSender.new trivLink c1RandomHash c1PrefixRandom c1Data (some c1Meta) with
  | Except.ok s => s
  | Except.error _ => dummySender

def c1Receiver : ResourceReceiver := ResourceReceiver.new (c1Sender.advertisement 0)

def c1Part : List Nat := c1Sender.parts.getD 0 []

def c1Result : ResourceReceiver × PartOutcome := c1Receiver.handlePart trivLink c1Part

/-- The same transfer without metadata, for contrast. -/
def c1SenderNoMeta : ResourceSender :=
  match ResourceSender.new trivLink c1RandomHash c1PrefixRandom c1Data none with
  | Except.ok s => s
  | Except.error _ => dummySender

def c1ReceiverNoMeta : ResourceReceiver :=
  ResourceReceiver.new (c1SenderNoMeta.advertisement 0)

def c1ResultNoMeta : ResourceReceiver × PartOutcome :=
  c1ReceiverNoMeta.handlePart trivLink (c1SenderNoMeta.parts.getD 0 [])

/-- The concrete `PACKET_MDU`-sized payload sender of claim C3. -/
def c3Sender : ResourceSender :=
  match ResourceSender.new trivLink c1RandomHash c1PrefixRandom (List.replicate Dest.PACKET_MDU 0) none with
  | Except.ok s => s
  | Except.error _ => dummySender

/-- The ciphertext `trivLink` produces for claim C3's payload. -/
def c3Cipher : List Nat :=
  List.replicate 16 0 ++ (c1PrefixRandom ++ List.replicate Dest.PACKET_MDU 0) ++ List.replicate 32 0

end Res

/-- Structural decidable equality for `Except` results, so concrete
evaluations can be settled by `decide`. -/
instance instDecEqExcept {ε α : Type} [DecidableEq ε] [DecidableEq α] :
    DecidableEq (Except ε α)
  | Except.ok x, Except.ok y =>
    if h : x = y then isTrue (h ▸ rfl) else isFalse (fun he => h (Except.ok.inj he))
  | Except.ok _, Except.error _ => isFalse (fun he => Except.noConfusion he)
  | Except.error _, Except.ok _ => isFalse (fun he => Except.noConfusion he)
  | Except.error e, Except.error f =>
    if h : e = f then isTrue (h ▸ rfl)
    else isFalse (fun he => h (Except.error.inj he))

namespace Dest

/-- The header every announce-shaped packet in these proofs carries. -/
def announceHeader : Header :=
  { ifac_flag := IfacFlag.openFlag, header_type := HeaderType.type1,
    propagation_type := PropagationType.broadcast,
    destination_type := DestinationType.single,
    packet_type := PacketType.announce, hops := 0 }

end Dest

namespace Daemon

/-- A concrete event for witness evaluations. -/
def cEv : RpcEvent := { event_type := ("x"), payload := JVal.null }

end Daemon

namespace Daemon

theorem pushEvent_fold (es : List RpcEvent) :
    es.foldl pushEvent [] = es.drop (es.length - 32) := by
  induction es using List.reverseRecOn with
  | nil => rfl
  | append_singleton es e ih =>
    rw [List.foldl_append, List.foldl_cons, List.foldl_nil, ih]
    by_cases h : es.length < 32
    · have h1 : es.length - 32 = 0 := by omega
      have h2 : es.length + 1 - 32 = 0 := by omega
      rw [h1, List.drop_zero]
      have hcond : ¬ es.length ≥ 32 := by omega
      simp [pushEvent, hcond, List.length_append, h2]
    · have h32 : 32 ≤ es.length := by omega
      have hlen : (es.drop (es.length - 32)).length = 32 := by
        rw [List.length_drop]; omega
      have hcond : (es.drop (es.length - 32)).length ≥ 32 := by omega
      rw [pushEvent, if_pos hcond, List.tail_drop]
      have harith : es.length - 32 + 1 = es.length + 1 - 32 := by omega
      rw [harith]
      have hle : es.length + 1 - 32 ≤ es.length := by omega
      rw [List.length_append, List.length_singleton,
        List.drop_append_of_le_length hle]

/-- C4: the daemon event queue never exceeds 32 entries; pushing onto a
full queue drops the oldest entry before appending, so the queue is
always the suffix of the pushed events, in push order; `take_event` pops
the front (FIFO). -/
theorem claim_C4_event_queue :
    (∀ es : List RpcEvent,
      es.foldl pushEvent [] = es.drop (es.length - 32) ∧
      (es.foldl pushEvent []).length ≤ 32) ∧
    (∀ (queue : List RpcEvent) (event : RpcEvent), queue.length ≥ 32 →
      pushEvent queue event = queue.tail ++ [event]) ∧
    (∀ queue : List RpcEvent, takeEvent queue = (queue.head?, queue.tail)) := by
  refine ⟨fun es => ⟨pushEvent_fold es, ?_⟩, fun queue event h => ?_, fun queue => ?_⟩
  · rw [pushEvent_fold, List.length_drop]; omega
  · rw [pushEvent, if_pos h]
  · cases queue <;> rfl

theorem claim_C4_witness :
    (List.replicate 32 cEv).length ≥ 32 ∧
      pushEvent (List.replicate 32 cEv) cEv =
        (List.replicate 32 cEv).tail ++ [cEv] ∧
      takeEvent [cEv] = (some cEv, []) := by
  have h : (List.replicate 32 cEv).length ≥ 32 := by
    rw [List.length_replicate]
  exact ⟨h, claim_C4_event_queue.2.1 (List.replicate 32 cEv) cEv h,
    claim_C4_event_queue.2.2 [cEv]⟩

end Daemon

namespace Daemon

theorem foldl_timestamp (anns : List AnnounceUpsert) (init : Int) :
    anns.foldl (fun _ a => a.timestamp) init =
      (match anns.getLast? with
       | some a => a.timestamp
       | none => init) := by
  induction anns generalizing init with
  | nil => rfl
  | cons a rest ih =>
    rw [List.foldl_cons, ih, List.getLast?_cons]
    cases h : rest.getLast? <;> simp [h]

theorem min_saturating_chain (x k M : Nat) :
    min (min (x + 1) M + k) M = min (x + (k + 1)) M := by omega

theorem applyUpserts_existing (anns : List AnnounceUpsert) :
    ∀ (peers : Peers) (peer : String) (r : PeerRecord),
      peers peer = some r → r.seen_count ≤ U64_MAX →
      ∃ r2 : PeerRecord,
        (applyUpserts peers peer anns) peer = some r2 ∧
        r2.first_seen = r.first_seen ∧
        r2.last_seen = anns.foldl (fun _ a => a.timestamp) r.last_seen ∧
        r2.seen_count = min (r.seen_count + anns.length) U64_MAX ∧
        (r2.name, r2.name_source) = anns.foldl namePairStep (r.name, r.name_source) ∧
        r2.seen_count ≤ U64_MAX := by
  induction anns with
  | nil =>
    intro peers peer r h hc
    refine ⟨r, h, rfl, rfl, ?_, rfl, hc⟩
    rw [List.length_nil, Nat.add_zero, Nat.min_eq_left hc]
  | cons a rest ih =>
    intro peers peer r h hc
    have hstep : applyUpserts peers peer (a :: rest) =
        applyUpserts ((upsertPeer peers peer a.timestamp a.name a.name_source).2)
          peer rest := rfl
    cases hclean : cleanOptionalText a.name with
    | none =>
      have hrec : (upsertPeer peers peer a.timestamp a.name a.name_source).2 peer =
          some { r with last_seen := a.timestamp,
                        seen_count := min (r.seen_count + 1) U64_MAX } := by
        simp [upsertPeer, h, hclean]
      obtain ⟨r2, h1, h2, h3, h4, h5, h6⟩ :=
        ih _ peer _ hrec (Nat.min_le_right _ _)
      refine ⟨r2, hstep ▸ h1, h2, ?_, ?_, ?_, h6⟩
      · rw [h3, List.foldl_cons]
      · rw [h4, List.length_cons]; exact min_saturating_chain _ _ _
      · rw [h5, List.foldl_cons, namePairStep, hclean]
    | some n =>
      have hrec : (upsertPeer peers peer a.timestamp a.name a.name_source).2 peer =
          some { r with last_seen := a.timestamp,
                        seen_count := min (r.seen_count + 1) U64_MAX,
                        name := some n,
                        name_source := cleanOptionalText a.name_source } := by
        simp [upsertPeer, h, hclean]
      obtain ⟨r2, h1, h2, h3, h4, h5, h6⟩ :=
        ih _ peer _ hrec (Nat.min_le_right _ _)
      refine ⟨r2, hstep ▸ h1, h2, ?_, ?_, ?_, h6⟩
      · rw [h3, List.foldl_cons]
      · rw [h4, List.length_cons]; exact min_saturating_chain _ _ _
      · rw [h5, List.foldl_cons, namePairStep, hclean]

theorem applyUpserts_fresh (peers : Peers) (peer : String) (a0 : AnnounceUpsert)
    (rest : List AnnounceUpsert) (h0 : peers peer = none) :
    ∃ r : PeerRecord,
      (applyUpserts peers peer (a0 :: rest)) peer = some r ∧
      r.first_seen = a0.timestamp ∧
      r.last_seen = rest.foldl (fun _ a => a.timestamp) a0.timestamp ∧
      r.seen_count = min (rest.length + 1) U64_MAX ∧
      (r.name, r.name_source) = expectedNamePair (a0 :: rest) := by
  have hstep : applyUpserts peers peer (a0 :: rest) =
      applyUpserts ((upsertPeer peers peer a0.timestamp a0.name a0.name_source).2)
        peer rest := rfl
  have hrec : (upsertPeer peers peer a0.timestamp a0.name a0.name_source).2 peer =
      some { peer := peer, last_seen := a0.timestamp,
             name := cleanOptionalText a0.name,
             name_source := cleanOptionalText a0.name_source,
             first_seen := a0.timestamp, seen_count := 1 } := by
    simp [upsertPeer, h0]
  have hone : (1 : Nat) ≤ U64_MAX := by norm_num [U64_MAX]
  obtain ⟨r2, h1, h2, h3, h4, h5, _⟩ := applyUpserts_existing rest _ peer _ hrec hone
  refine ⟨r2, hstep ▸ h1, h2, h3, ?_, h5⟩
  rw [h4]; dsimp only; rw [Nat.add_comm]

end Daemon

namespace Daemon

/-- C5 (amended): over a sequence of accepted announces for one peer, the
stored record keeps `first_seen` from the first announce, takes
`last_seen` from the latest, updates the name pair only from announces
that supply a name, and counts announces with `u64::saturating_add`, i.e.
`seen_count = min(count, u64::MAX)` rather than always incrementing. -/
theorem claim_C5_upsert_peer (peers : Peers) (peer : String) (a0 : AnnounceUpsert)
    (rest : List AnnounceUpsert) (h0 : peers peer = none) :
    ∃ r : PeerRecord,
      (applyUpserts peers peer (a0 :: rest)) peer = some r ∧
      r.first_seen = a0.timestamp ∧
      r.last_seen = ((a0 :: rest).getLast (List.cons_ne_nil a0 rest)).timestamp ∧
      r.seen_count = min (a0 :: rest).length U64_MAX ∧
      (r.name, r.name_source) = expectedNamePair (a0 :: rest) := by
  obtain ⟨r, h1, h2, h3, h4, h5⟩ := applyUpserts_fresh peers peer a0 rest h0
  refine ⟨r, h1, h2, ?_, ?_, h5⟩
  · rw [h3, foldl_timestamp]
    have hg : (a0 :: rest).getLast? =
        some ((a0 :: rest).getLast (List.cons_ne_nil a0 rest)) :=
      List.getLast?_eq_getLast _ _
    rw [List.getLast?_cons] at hg
    have hg2 := Option.some.inj hg
    rw [← hg2]
    cases h : rest.getLast? <;> simp [h]
  · rw [h4, List.length_cons]

theorem claim_C5_counterexample :
    ∃ r : PeerRecord,
      (applyUpserts emptyPeers ("p") (List.replicate (2 ^ 64) cAnn)) ("p") = some r ∧
      r.seen_count ≠ (List.replicate (2 ^ 64) cAnn).length := by
  have hsucc : (2 : Nat) ^ 64 = 18446744073709551615 + 1 := by norm_num
  have hrep : List.replicate ((2 : Nat) ^ 64) cAnn =
      cAnn :: List.replicate 18446744073709551615 cAnn := by
    rw [hsucc, List.replicate_succ]
  rw [hrep]
  obtain ⟨r, h1, _, _, h4, _⟩ :=
    applyUpserts_fresh emptyPeers ("p") cAnn (List.replicate 18446744073709551615 cAnn) rfl
  refine ⟨r, h1, ?_⟩
  rw [h4, List.length_replicate, List.length_cons, List.length_replicate]
  decide

theorem claim_C5_witness :
    emptyPeers ("peer-a") = none ∧
    (∃ r : PeerRecord,
      (applyUpserts emptyPeers ("peer-a")
        ({ timestamp := 123, name := some ("Alice"), name_source := some ("pn_meta") } ::
         [{ timestamp := 200, name := none, name_source := none }])) ("peer-a") = some r ∧
      r.first_seen = (123 : Int) ∧
      r.last_seen = (200 : Int) ∧
      r.seen_count = 2 ∧
      (r.name, r.name_source) = (some ("Alice"), some ("pn_meta"))) := by
  constructor
  · rfl
  · have h := claim_C5_upsert_peer emptyPeers ("peer-a")
      { timestamp := 123, name := some ("Alice"), name_source := some ("pn_meta") }
      [{ timestamp := 200, name := none, name_source := none }] rfl
    obtain ⟨r, h1, h2, h3, h4, h5⟩ := h
    exact ⟨r, h1, h2, h3, h4, h5⟩

end Daemon

namespace Daemon

open RnsCrypto TextCodec

/-- C7: with an `lxm://` URI, the first ingest reports `duplicate = false`
and only adds `hex(SHA-256(uri))` to the idempotency set; once that id is
present, every ingest of the same URI reports `duplicate = true` with the
identical `transient_id` and leaves the state unchanged; a URI without
the prefix is rejected as an input error with no state change. -/
theorem claim_C7_paper_ingest :
    (∀ (seen : SeenSet) (uri : String),
      strStartsWith uri ("lxm://") = true →
      seen (encodeHexStr (sha256 (strBytes uri))) = false →
      paperIngestUri seen uri =
        (Except.ok
          { destination := firstNChars (trimStartMatches uri ("lxm://")) 32,
            transient_id := encodeHexStr (sha256 (strBytes uri)),
            duplicate := false, bytes_len := (strBytes uri).length },
         fun key => if key = encodeHexStr (sha256 (strBytes uri)) then true
           else seen key)) ∧
    (∀ (seen : SeenSet) (uri : String),
      strStartsWith uri ("lxm://") = true →
      seen (encodeHexStr (sha256 (strBytes uri))) = true →
      paperIngestUri seen uri =
        (Except.ok
          { destination := firstNChars (trimStartMatches uri ("lxm://")) 32,
            transient_id := encodeHexStr (sha256 (strBytes uri)),
            duplicate := true, bytes_len := (strBytes uri).length },
         seen)) ∧
    (∀ (seen : SeenSet) (uri : String),
      strStartsWith uri ("lxm://") = false →
      paperIngestUri seen uri =
        (Except.error ("paper URI must start with lxm://"), seen)) := by
  refine ⟨fun seen uri h1 h2 => ?_, fun seen uri h1 h2 => ?_, fun seen uri h1 => ?_⟩
  · simp [paperIngestUri, h1, h2]
  · simp [paperIngestUri, h1, h2]
  · simp [paperIngestUri, h1]

theorem claim_C7_witness :
    strStartsWith ("lxm://6b3362bd2c1dbf87b66a85f79a8d8c75HELLO") ("lxm://") = true ∧
    emptySeen (encodeHexStr (sha256 (strBytes ("lxm://6b3362bd2c1dbf87b66a85f79a8d8c75HELLO")))) = false ∧
    (let uri := ("lxm://6b3362bd2c1dbf87b66a85f79a8d8c75HELLO")
     let tid := encodeHexStr (sha256 (strBytes uri))
     let seen2 : SeenSet := fun key => if key = tid then true else emptySeen key
     paperIngestUri emptySeen uri =
        (Except.ok
          { destination := firstNChars (trimStartMatches uri ("lxm://")) 32,
            transient_id := tid, duplicate := false,
            bytes_len := (strBytes uri).length }, seen2) ∧
     seen2 tid = true ∧
     paperIngestUri seen2 uri =
        (Except.ok
          { destination := firstNChars (trimStartMatches uri ("lxm://")) 32,
            transient_id := tid, duplicate := true,
            bytes_len := (strBytes uri).length }, seen2) ∧
     paperIngestUri emptySeen ("mailto:x") =
        (Except.error ("paper URI must start with lxm://"), emptySeen)) := by
  have h1 : strStartsWith ("lxm://6b3362bd2c1dbf87b66a85f79a8d8c75HELLO") ("lxm://") = true := by
    decide
  have h2 : emptySeen
      (encodeHexStr (sha256 (strBytes ("lxm://6b3362bd2c1dbf87b66a85f79a8d8c75HELLO")))) = false := rfl
  have hdup : (fun key => if key = encodeHexStr
        (sha256 (strBytes ("lxm://6b3362bd2c1dbf87b66a85f79a8d8c75HELLO"))) then true
      else emptySeen key)
      (encodeHexStr (sha256 (strBytes ("lxm://6b3362bd2c1dbf87b66a85f79a8d8c75HELLO")))) = true := by
    simp
  refine ⟨h1, h2, ?_, hdup, ?_, ?_⟩
  · exact claim_C7_paper_ingest.1 emptySeen _ h1 h2
  · exact claim_C7_paper_ingest.2.1 _ _ h1 hdup
  · exact claim_C7_paper_ingest.2.2 emptySeen ("mailto:x") (by decide)

/-- C8: `ticket_generate` rejects `ttl_secs = u64::MAX` (and any TTL whose
`now + ttl` would overflow `i64`) with an input error and an unchanged
cache; for a valid TTL it stores and returns a record whose ticket is
`hex(SHA-256(destination || now_be))` and whose `expires_at = now + ttl`. -/
theorem claim_C8_ticket_generate (cache : TicketCache) (now : Int)
    (params : TicketGenerateParams) (hlo : I64_MIN ≤ now) (hhi : now ≤ I64_MAX) :
    (params.ttl_secs = some U64_MAX →
      ticketGenerate cache now params =
        (Except.error ("ttl_secs exceeds supported range"), cache)) ∧
    (∀ ttl : Nat, params.ttl_secs = some ttl → ttl ≤ Int.toNat I64_MAX →
      I64_MAX < now + ttl →
      ticketGenerate cache now params =
        (Except.error ("ttl_secs causes timestamp overflow"), cache)) ∧
    (∀ ttl : Nat, params.ttl_secs.getD 3600 = ttl → ttl ≤ Int.toNat I64_MAX →
      now + ttl ≤ I64_MAX →
      ticketGenerate cache now params =
        (Except.ok
          { ticket := encodeHexStr (sha256 (strBytes params.destination ++ i64ToBytesBE now)),
            destination := params.destination, expires_at := now + ttl,
            ttl_secs := ttl },
         fun key => if key = params.destination then
           some { destination := params.destination,
                  ticket := encodeHexStr (sha256 (strBytes params.destination ++ i64ToBytesBE now)),
                  expires_at := now + ttl }
         else cache key)) := by
  refine ⟨fun hp => ?_, fun ttl hp hle hov => ?_, fun ttl hp hle hok => ?_⟩
  · have hgt : Option.getD (some U64_MAX) 3600 > Int.toNat I64_MAX := by decide
    rw [ticketGenerate, hp]
    rw [if_pos hgt]
  · have hng : ¬ Option.getD (some ttl) 3600 > Int.toNat I64_MAX := by
      simp only [Option.getD_some]; omega
    rw [ticketGenerate, hp, if_neg hng]
    have hcond : (now + (Option.getD (some ttl) 3600 : Nat) > I64_MAX ∨
        now + (Option.getD (some ttl) 3600 : Nat) < I64_MIN) := by
      simp only [Option.getD_some]; left; exact_mod_cast hov
    rw [if_pos hcond]
  · have hng : ¬ params.ttl_secs.getD 3600 > Int.toNat I64_MAX := by
      rw [hp]; omega
    rw [ticketGenerate, if_neg hng]
    have hcond : ¬ (now + (params.ttl_secs.getD 3600 : Nat) > I64_MAX ∨
        now + (params.ttl_secs.getD 3600 : Nat) < I64_MIN) := by
      rw [hp]
      push_neg
      constructor
      · exact_mod_cast hok
      · have : (0 : Int) ≤ (ttl : Int) := Int.ofNat_nonneg ttl
        omega
    rw [if_neg hcond, hp]

theorem claim_C8_witness :
    I64_MIN ≤ (100 : Int) ∧ (100 : Int) ≤ I64_MAX ∧
    ((⟨("dest"), some U64_MAX⟩ : TicketGenerateParams).ttl_secs = some U64_MAX) ∧
    ticketGenerate emptyTickets 100 ⟨("dest"), some U64_MAX⟩ =
      (Except.error ("ttl_secs exceeds supported range"), emptyTickets) ∧
    ((⟨("dest"), some 30⟩ : TicketGenerateParams).ttl_secs.getD 3600 = 30) ∧
    ticketGenerate emptyTickets 100 ⟨("dest"), some 30⟩ =
      (Except.ok
        { ticket := encodeHexStr (sha256 (strBytes ("dest") ++ i64ToBytesBE 100)),
          destination := ("dest"), expires_at := 130, ttl_secs := 30 },
       fun key => if key = ("dest") then
         some { destination := ("dest"),
                ticket := encodeHexStr (sha256 (strBytes ("dest") ++ i64ToBytesBE 100)),
                expires_at := 130 }
       else emptyTickets key) := by
  have hlo : I64_MIN ≤ (100 : Int) := by decide
  have hhi : (100 : Int) ≤ I64_MAX := by decide
  refine ⟨hlo, hhi, rfl, ?_, rfl, ?_⟩
  · exact (claim_C8_ticket_generate emptyTickets 100 ⟨("dest"), some U64_MAX⟩ hlo hhi).1 rfl
  · have h := (claim_C8_ticket_generate emptyTickets 100 ⟨("dest"), some 30⟩ hlo hhi).2.2
      30 rfl (by decide) (by decide)
    exact h

end Daemon

namespace Daemon

/-- C6: with no outbound propagation node configured, the RPC returns
`success:false`, `errorCode:"NO_PROPAGATION_NODE"`, `state 0` (idle),
emits exactly one `propagation_state` event (queued and broadcast), and
touches nothing but the propagation state and the event queue — the
method body performs no bridge or network call on this path. -/
theorem claim_C6_no_propagation_node (st : SyncDaemonState) (now completedNow : Int)
    (maxMessages : Nat) (h : st.outbound_propagation_node = none) :
    ∃ ev : RpcEvent,
      requestMessagesFromPropagationNode st now completedNow maxMessages none =
        (Except.ok (JVal.obj
          [(("success"), JVal.bool false),
           (("error"), JVal.str ("No propagation node configured")),
           (("errorCode"), JVal.str ("NO_PROPAGATION_NODE")),
           (("state"), JVal.num 0),
           (("state_name"), JVal.str ("idle")),
           (("progress"), JVal.rat 0),
           (("messages_received"), JVal.num 0)]),
         ({ st with
             propagation_state :=
               { sync_state := 0, state_name := ("idle"), sync_progress := 0,
                 messages_received := 0, max_messages := maxMessages,
                 selected_node := none, last_sync_started := some now,
                 last_sync_completed := some now,
                 last_sync_error := some ("No propagation node configured") },
             event_queue := pushEvent st.event_queue ev },
          [ev])) ∧
      ev.event_type = ("propagation_state") ∧
      ev.payload = JVal.obj
        [(("state"), JVal.num 0),
         (("state_name"), JVal.str ("idle")),
         (("progress"), JVal.rat 0),
         (("messages_received"), JVal.num 0),
         (("selected_node"), JVal.null),
         (("max_messages"), JVal.num maxMessages)] := by
  refine ⟨{ event_type := ("propagation_state"),
            payload := JVal.obj
              [(("state"), JVal.num 0),
               (("state_name"), JVal.str ("idle")),
               (("progress"), JVal.rat 0),
               (("messages_received"), JVal.num 0),
               (("selected_node"), JVal.null),
               (("max_messages"), JVal.num maxMessages)] }, ?_, rfl, rfl⟩
  show requestMessagesFromPropagationNode.requestMessagesBody st now completedNow
      maxMessages = _
  rw [requestMessagesFromPropagationNode.requestMessagesBody, h]
  rfl

theorem claim_C6_witness :
    st0.outbound_propagation_node = none ∧
    (∃ ev : RpcEvent,
      requestMessagesFromPropagationNode st0 5 6 256 none =
        (Except.ok (JVal.obj
          [(("success"), JVal.bool false),
           (("error"), JVal.str ("No propagation node configured")),
           (("errorCode"), JVal.str ("NO_PROPAGATION_NODE")),
           (("state"), JVal.num 0),
           (("state_name"), JVal.str ("idle")),
           (("progress"), JVal.rat 0),
           (("messages_received"), JVal.num 0)]),
         ({ st0 with
             propagation_state :=
               { sync_state := 0, state_name := ("idle"), sync_progress := 0,
                 messages_received := 0, max_messages := 256,
                 selected_node := none, last_sync_started := some 5,
                 last_sync_completed := some 5,
                 last_sync_error := some ("No propagation node configured") },
             event_queue := pushEvent st0.event_queue ev },
          [ev])) ∧
      ev.event_type = ("propagation_state") ∧
      ev.payload = JVal.obj
        [(("state"), JVal.num 0),
         (("state_name"), JVal.str ("idle")),
         (("progress"), JVal.rat 0),
         (("messages_received"), JVal.num 0),
         (("selected_node"), JVal.null),
         (("max_messages"), JVal.num 256)]) :=
  ⟨rfl, claim_C6_no_propagation_node st0 5 6 256 rfl⟩

end Daemon

namespace LxmfBridge

open TextCodec

/-- C9: for trimmed attachment text without an explicit prefix, text that
decodes as both hex and base64 is rejected (and its entry dropped from
the attachment list); text decodable as exactly one of the two is decoded
to those bytes; `hex:`/`base64:`-prefixed text is decoded per its prefix
only. -/
theorem claim_C9_attachment_decode :
    (∀ (cs : List Char), trimChars cs = cs →
      hexPfx.isPrefixOf cs = false → hexPfxUp.isPrefixOf cs = false →
      b64Pfx.isPrefixOf cs = false → b64PfxUp.isPrefixOf cs = false →
      (∀ h b, decodeHexAttachmentData cs = some h → base64Decode cs = some b →
        decodeAttachmentTextData cs = none ∧
        (∀ name : List Char,
          normalizeFileAttachmentEntry (Json.arr [Json.str name, Json.str cs]) = none)) ∧
      (∀ h, decodeHexAttachmentData cs = some h → base64Decode cs = none →
        decodeAttachmentTextData cs = some h) ∧
      (∀ b, base64Decode cs = some b → decodeHexAttachmentData cs = none →
        decodeAttachmentTextData cs = some b)) ∧
    (∀ p : List Char, trimChars (hexPfx ++ p) = hexPfx ++ p →
      decodeAttachmentTextData (hexPfx ++ p) = decodeHexAttachmentData (trimChars p)) ∧
    (∀ p : List Char, trimChars (b64Pfx ++ p) = b64Pfx ++ p →
      decodeAttachmentTextData (b64Pfx ++ p) = base64Decode (trimChars p)) := by
  have hdrop : ∀ (pfx p : List Char), (pfx ++ p).drop pfx.length = p :=
    fun pfx p => List.drop_left pfx p
  have hself : ∀ (pfx p : List Char), pfx.isPrefixOf (pfx ++ p) = true :=
    fun pfx p => List.isPrefixOf_iff_prefix.mpr (List.prefix_append pfx p)
  refine ⟨fun cs htrim hp1 hp2 hp3 hp4 => ?_, fun p htrim => ?_, fun p htrim => ?_⟩
  · refine ⟨fun h b hh hb => ⟨?_, fun name => ?_⟩, fun h hh hb => ?_, fun b hb hh => ?_⟩
    · by_cases hcs : cs = []
      · subst hcs; rfl
      · simp [decodeAttachmentTextData, htrim, hcs, stripPfx, hp1, hp2, hp3, hp4,
          Option.orElse, hh, hb]
    · have hnone : decodeAttachmentTextData cs = none := by
        by_cases hcs : cs = []
        · subst hcs; rfl
        · simp [decodeAttachmentTextData, htrim, hcs, stripPfx, hp1, hp2, hp3, hp4,
            Option.orElse, hh, hb]
      simp [normalizeFileAttachmentEntry, normalizeAttachmentData, hnone]
    · have hcs : cs ≠ [] := by
        intro hcs; subst hcs; simp [base64Decode, b64Groups] at hb
      simp [decodeAttachmentTextData, htrim, hcs, stripPfx, hp1, hp2, hp3, hp4,
        Option.orElse, hh, hb]
    · have hcs : cs ≠ [] := by
        intro hcs; subst hcs; simp [decodeHexAttachmentData] at hh
      simp [decodeAttachmentTextData, htrim, hcs, stripPfx, hp1, hp2, hp3, hp4,
        Option.orElse, hh, hb]
  · have hne : hexPfx ++ p ≠ [] := by simp [hexPfx]
    simp only [decodeAttachmentTextData, htrim]
    rw [if_neg hne]
    simp [stripPfx, hself, Option.orElse, hdrop, hexPfx]
  · have hne : b64Pfx ++ p ≠ [] := by simp [b64Pfx]
    have hb1 : ¬ hexPfx <+: ('b' :: 'a' :: 's' :: 'e' :: '6' :: '4' :: ':' :: p) := by
      simp [hexPfx, List.cons_prefix_cons]
    have hb2 : ¬ hexPfxUp <+: ('b' :: 'a' :: 's' :: 'e' :: '6' :: '4' :: ':' :: p) := by
      simp [hexPfxUp, List.cons_prefix_cons]
    simp only [decodeAttachmentTextData, htrim]
    rw [if_neg hne]
    simp [stripPfx, hself, hb1, hb2, Option.orElse, hdrop, b64Pfx]

theorem claim_C9_witness :
    trimChars (String.toList ("abcd")) = String.toList ("abcd") ∧
    hexPfx.isPrefixOf (String.toList ("abcd")) = false ∧
    decodeHexAttachmentData (String.toList ("abcd")) = some [0xAB, 0xCD] ∧
    base64Decode (String.toList ("abcd")) = some [105, 183, 29] ∧
    decodeAttachmentTextData (String.toList ("abcd")) = none ∧
    normalizeFileAttachmentEntry
      (Json.arr [Json.str (String.toList ("bad")), Json.str (String.toList ("abcd"))]) = none ∧
    decodeAttachmentTextData (String.toList ("0a0b0c")) = some [10, 11, 12] ∧
    decodeAttachmentTextData (String.toList ("AQID")) = some [1, 2, 3] := by
  have h := (claim_C9_attachment_decode.1 (String.toList ("abcd")) (by decide)
    (by decide) (by decide) (by decide) (by decide)).1 [0xAB, 0xCD] [105, 183, 29]
    (by decide) (by decide)
  have h2 := (claim_C9_attachment_decode.1 (String.toList ("0a0b0c")) (by decide)
    (by decide) (by decide) (by decide) (by decide)).2.1 [10, 11, 12]
    (by decide) (by decide)
  have h3 := (claim_C9_attachment_decode.1 (String.toList ("AQID")) (by decide)
    (by decide) (by decide) (by decide) (by decide)).2.2 [1, 2, 3]
    (by decide) (by decide)
  exact ⟨by decide, by decide, by decide, by decide, h.1, h.2 _, h2, h3⟩

end LxmfBridge

namespace RnsCrypto

theorem wordsToBytes_length (ws : List Nat) :
    (wordsToBytes ws).length = 4 * ws.length := by
  induction ws with
  | nil => rfl
  | cons w rest ih => simp [wordsToBytes, ih]; ring

theorem compressBlock_length (hs block : List Nat) (h : hs.length = 8) :
    (compressBlock hs block).length = 8 := by
  simp [compressBlock, sha8ToList, h]

theorem shaBlocks_length (fuel : Nat) :
    ∀ (bytes hs : List Nat), hs.length = 8 → (shaBlocks fuel bytes hs).length = 8 := by
  induction fuel with
  | zero => intro bytes hs h; simpa [shaBlocks] using h
  | succ fuel ih =>
    intro bytes hs h
    cases bytes with
    | nil => simpa [shaBlocks] using h
    | cons b rest =>
      exact ih _ _ (compressBlock_length _ _ h)

theorem sha256_length (msg : List Nat) : (sha256 msg).length = 32 := by
  rw [sha256, wordsToBytes_length, shaBlocks_length]
  rfl

end RnsCrypto

namespace Dest

open RnsCrypto

theorem edSign_length (verKey msg : List Nat) : (edSign verKey msg).length = 64 := by
  simp [edSign, sha256_length]

theorem createAddressHash_length (pubKey verKey nameHash : List Nat) :
    (createAddressHash pubKey verKey nameHash).length = 16 := by
  simp [createAddressHash, sha256_length]

theorem bufSafeWrite_ok (buf bytes : List Nat)
    (h : buf.length + bytes.length ≤ PACKET_MDU) :
    bufSafeWrite buf bytes = buf ++ bytes := if_pos h

theorem bufWrite_ok (buf bytes : List Nat)
    (h : buf.length + bytes.length ≤ PACKET_MDU) :
    bufWrite buf bytes = Except.ok (buf ++ bytes) := if_pos h

theorem exBindOk {α β : Type} (a : α) (f : α → Except RnsError β) :
    (Except.ok a : Except RnsError α) >>= f = f a := rfl

theorem announce_none_eq (id : PrivateIdentity) (nameHash randHash : List Nat)
    (hP : id.pubKey.length = 32) (hV : id.verKey.length = 32)
    (hN : nameHash.length = 32) (hR : randHash.length = 32) :
    announce id nameHash randHash none = Except.ok
      { header :=
          { ifac_flag := IfacFlag.openFlag, header_type := HeaderType.type1,
            propagation_type := PropagationType.broadcast,
            destination_type := DestinationType.single,
            packet_type := PacketType.announce, hops := 0 },
        ifac := none,
        destination := createAddressHash id.pubKey id.verKey nameHash,
        transport := none, context := PacketContext.noContext,
        data := id.pubKey ++ id.verKey ++ (nameHash.take NAME_HASH_LENGTH) ++ (randHash.take RAND_HASH_LENGTH) ++ edSign id.verKey (createAddressHash id.pubKey id.verKey nameHash ++ id.pubKey ++ id.verKey ++ (nameHash.take NAME_HASH_LENGTH) ++ (randHash.take RAND_HASH_LENGTH)) } := by
  have s1 : bufSafeWrite [] (createAddressHash id.pubKey id.verKey nameHash) = createAddressHash id.pubKey id.verKey nameHash := by
    rw [bufSafeWrite_ok _ _ (by simp [createAddressHash_length, edSign_length, hP, hV, hN, hR, NAME_HASH_LENGTH, RAND_HASH_LENGTH, PACKET_MDU]), List.nil_append]
  have s2 : bufSafeWrite (createAddressHash id.pubKey id.verKey nameHash) id.pubKey = createAddressHash id.pubKey id.verKey nameHash ++ id.pubKey :=
    bufSafeWrite_ok _ _ (by simp [createAddressHash_length, edSign_length, hP, hV, hN, hR, NAME_HASH_LENGTH, RAND_HASH_LENGTH, PACKET_MDU])
  have s3 : bufSafeWrite (createAddressHash id.pubKey id.verKey nameHash ++ id.pubKey) id.verKey = createAddressHash id.pubKey id.verKey nameHash ++ id.pubKey ++ id.verKey :=
    bufSafeWrite_ok _ _ (by simp [createAddressHash_length, edSign_length, hP, hV, hN, hR, NAME_HASH_LENGTH, RAND_HASH_LENGTH, PACKET_MDU])
  have s4 : bufSafeWrite (createAddressHash id.pubKey id.verKey nameHash ++ id.pubKey ++ id.verKey) (nameHash.take NAME_HASH_LENGTH) =
      createAddressHash id.pubKey id.verKey nameHash ++ id.pubKey ++ id.verKey ++ (nameHash.take NAME_HASH_LENGTH) :=
    bufSafeWrite_ok _ _ (by simp [createAddressHash_length, edSign_length, hP, hV, hN, hR, NAME_HASH_LENGTH, RAND_HASH_LENGTH, PACKET_MDU])
  have s5 : bufSafeWrite (createAddressHash id.pubKey id.verKey nameHash ++ id.pubKey ++ id.verKey ++ (nameHash.take NAME_HASH_LENGTH)) (randHash.take RAND_HASH_LENGTH) =
      createAddressHash id.pubKey id.verKey nameHash ++ id.pubKey ++ id.verKey ++ (nameHash.take NAME_HASH_LENGTH) ++ (randHash.take RAND_HASH_LENGTH) :=
    bufSafeWrite_ok _ _ (by simp [createAddressHash_length, edSign_length, hP, hV, hN, hR, NAME_HASH_LENGTH, RAND_HASH_LENGTH, PACKET_MDU])
  have t1 : bufSafeWrite [] id.pubKey = id.pubKey := by
    rw [bufSafeWrite_ok _ _ (by simp [createAddressHash_length, edSign_length, hP, hV, hN, hR, NAME_HASH_LENGTH, RAND_HASH_LENGTH, PACKET_MDU]), List.nil_append]
  have t2 : bufSafeWrite id.pubKey id.verKey = id.pubKey ++ id.verKey :=
    bufSafeWrite_ok _ _ (by simp [createAddressHash_length, edSign_length, hP, hV, hN, hR, NAME_HASH_LENGTH, RAND_HASH_LENGTH, PACKET_MDU])
  have t3 : bufSafeWrite (id.pubKey ++ id.verKey) (nameHash.take NAME_HASH_LENGTH) = id.pubKey ++ id.verKey ++ (nameHash.take NAME_HASH_LENGTH) :=
    bufSafeWrite_ok _ _ (by simp [createAddressHash_length, edSign_length, hP, hV, hN, hR, NAME_HASH_LENGTH, RAND_HASH_LENGTH, PACKET_MDU])
  have t4 : bufSafeWrite (id.pubKey ++ id.verKey ++ (nameHash.take NAME_HASH_LENGTH)) (randHash.take RAND_HASH_LENGTH) =
      id.pubKey ++ id.verKey ++ (nameHash.take NAME_HASH_LENGTH) ++ (randHash.take RAND_HASH_LENGTH) :=
    bufSafeWrite_ok _ _ (by simp [createAddressHash_length, edSign_length, hP, hV, hN, hR, NAME_HASH_LENGTH, RAND_HASH_LENGTH, PACKET_MDU])
  have t5 : bufSafeWrite (id.pubKey ++ id.verKey ++ (nameHash.take NAME_HASH_LENGTH) ++ (randHash.take RAND_HASH_LENGTH)) (edSign id.verKey (createAddressHash id.pubKey id.verKey nameHash ++ id.pubKey ++ id.verKey ++ (nameHash.take NAME_HASH_LENGTH) ++ (randHash.take RAND_HASH_LENGTH))) =
      id.pubKey ++ id.verKey ++ (nameHash.take NAME_HASH_LENGTH) ++ (randHash.take RAND_HASH_LENGTH) ++ edSign id.verKey (createAddressHash id.pubKey id.verKey nameHash ++ id.pubKey ++ id.verKey ++ (nameHash.take NAME_HASH_LENGTH) ++ (randHash.take RAND_HASH_LENGTH)) :=
    bufSafeWrite_ok _ _ (by simp [createAddressHash_length, edSign_length, hP, hV, hN, hR, NAME_HASH_LENGTH, RAND_HASH_LENGTH, PACKET_MDU])
  rw [announce]
  simp only [exBindOk]
  rw [s1, s2, s3, s4, s5, t1, t2, t3, t4, t5]

end Dest

namespace Dest

open RnsCrypto

theorem exBindErr {α β : Type} (e : RnsError) (f : α → Except RnsError β) :
    (Except.error e : Except RnsError α) >>= f = Except.error e := rfl

theorem verifyAnnounce_ok (dest P V N10p R10p a : List Nat)
    (hdest : dest.length = 16) (hP : P.length = 32) (hV : V.length = 32)
    (hN10 : N10p.length = 10) (hR10 : R10p.length = 10)
    (hcap : 148 + a.length ≤ PACKET_MDU) (S : List Nat)
    (hSig : S = edSign V (dest ++ P ++ V ++ N10p ++ R10p ++ a)) :
    verifyAnnounce dest P V N10p R10p none S a = Except.ok () := by
  have c1 : bufWrite [] dest = Except.ok dest := by
    rw [bufWrite_ok _ _ (by simp [hdest, PACKET_MDU]), List.nil_append]
  have c2 : bufWrite dest P = Except.ok (dest ++ P) :=
    bufWrite_ok _ _ (by simp [hdest, hP, PACKET_MDU])
  have c3 : bufWrite (dest ++ P) V = Except.ok (dest ++ P ++ V) :=
    bufWrite_ok _ _ (by simp [hdest, hP, hV, PACKET_MDU])
  have c4 : bufWrite (dest ++ P ++ V) N10p = Except.ok (dest ++ P ++ V ++ N10p) :=
    bufWrite_ok _ _ (by simp [hdest, hP, hV, hN10, PACKET_MDU])
  have c5 : bufWrite (dest ++ P ++ V ++ N10p) R10p =
      Except.ok (dest ++ P ++ V ++ N10p ++ R10p) :=
    bufWrite_ok _ _ (by simp [hdest, hP, hV, hN10, hR10, PACKET_MDU])
  have c6 : bufWrite (dest ++ P ++ V ++ N10p ++ R10p) a =
      Except.ok (dest ++ P ++ V ++ N10p ++ R10p ++ a) :=
    bufWrite_ok _ _ (by
      simp only [PACKET_MDU] at hcap ⊢
      simp [hdest, hP, hV, hN10, hR10]
      omega)
  have hS64 : S.length = 64 := by rw [hSig]; exact edSign_length _ _
  rw [verifyAnnounce]
  simp only [c1, c2, c3, c4, c5, c6, exBindOk]
  by_cases ha : a.isEmpty
  · have ha2 : a = [] := by
      cases a with
      | nil => rfl
      | cons x xs => simp [List.isEmpty] at ha
    have hprop : S = edSign V (dest ++ P ++ V ++ N10p ++ R10p) := by
      rw [hSig, ha2, List.append_nil]
    simp [ha, hS64, SIGNATURE_LENGTH, edVerify, hprop, edSign_length]
  · simp [ha, hS64, SIGNATURE_LENGTH, edVerify, hSig, edSign_length]

end Dest

namespace Dest

open RnsCrypto

theorem validate_ok_of_signed (dest P V N10p R10p a : List Nat)
    (hdest : dest.length = 16) (hP : P.length = 32) (hV : V.length = 32)
    (hN10 : N10p.length = 10) (hR10 : R10p.length = 10)
    (hcap : 148 + a.length ≤ PACKET_MDU) (S : List Nat)
    (hSig : S = edSign V (dest ++ P ++ V ++ N10p ++ R10p ++ a)) :
    ∃ info : AnnounceInfo,
      validate
        { header := announceHeader, ifac := none, destination := dest,
          transport := none, context := PacketContext.noContext,
          data := P ++ V ++ N10p ++ R10p ++ S ++ a } = Except.ok info ∧
      info.outputDestination =
        { identity := { pubKey := P, verKey := V },
          nameHash := nameFromHashSlice N10p,
          addressHash := createAddressHash P V (nameFromHashSlice N10p) } := by
  have hS64 : S.length = 64 := by rw [hSig]; exact edSign_length _ _
  have hDr : P ++ V ++ N10p ++ R10p ++ S ++ a =
      P ++ (V ++ (N10p ++ (R10p ++ (S ++ a)))) := by
    simp [List.append_assoc]
  have hD : (P ++ V ++ N10p ++ R10p ++ S ++ a).length = 148 + a.length := by
    simp [hP, hV, hN10, hR10, hS64]
    omega
  have e1 : (P ++ V ++ N10p ++ R10p ++ S ++ a).take 32 = P := by
    rw [hDr]; exact List.take_left' hP
  have d32 : (P ++ V ++ N10p ++ R10p ++ S ++ a).drop 32 =
      V ++ (N10p ++ (R10p ++ (S ++ a))) := by
    rw [hDr]; exact List.drop_left' hP
  have e2 : ((P ++ V ++ N10p ++ R10p ++ S ++ a).drop 32).take 32 = V := by
    rw [d32]; exact List.take_left' hV
  have d64 : (P ++ V ++ N10p ++ R10p ++ S ++ a).drop 64 =
      N10p ++ (R10p ++ (S ++ a)) := by
    have : (64 : Nat) = 32 + 32 := rfl
    rw [this, ← List.drop_drop, d32]
    exact List.drop_left' hV
  have e3 : ((P ++ V ++ N10p ++ R10p ++ S ++ a).drop 64).take 10 = N10p := by
    rw [d64]; exact List.take_left' hN10
  have d74 : (P ++ V ++ N10p ++ R10p ++ S ++ a).drop 74 = R10p ++ (S ++ a) := by
    have : (74 : Nat) = 64 + 10 := rfl
    rw [this, ← List.drop_drop, d64]
    exact List.drop_left' hN10
  have e4 : ((P ++ V ++ N10p ++ R10p ++ S ++ a).drop 74).take 10 = R10p := by
    rw [d74]; exact List.take_left' hR10
  have d84 : (P ++ V ++ N10p ++ R10p ++ S ++ a).drop 84 = S ++ a := by
    have : (84 : Nat) = 74 + 10 := rfl
    rw [this, ← List.drop_drop, d74]
    exact List.drop_left' hR10
  have e5 : ((P ++ V ++ N10p ++ R10p ++ S ++ a).drop 84).take 64 = S := by
    rw [d84]; exact List.take_left' hS64
  have e6 : (P ++ V ++ N10p ++ R10p ++ S ++ a).drop 148 = a := by
    have : (148 : Nat) = 84 + 64 := rfl
    rw [this, ← List.drop_drop, d84]
    exact List.drop_left' hS64
  have hverify := verifyAnnounce_ok dest P V N10p R10p a hdest hP hV hN10 hR10
    hcap S hSig
  rw [validate]
  simp only [announceHeader]
  rw [if_neg (by simp)]
  rw [if_neg (by rw [hD]; simp [MIN_ANNOUNCE_DATA_LENGTH,
    PUBLIC_KEY_LENGTH, NAME_HASH_LENGTH, RAND_HASH_LENGTH, SIGNATURE_LENGTH])]
  rw [if_neg (by rw [hD]; simp [SIGNATURE_LENGTH]; omega)]
  rw [e1, e2, e3, e4]
  by_cases hbig : (P ++ V ++ N10p ++ R10p ++ S ++ a).length - 84 ≥
      SIGNATURE_LENGTH + RATCHET_LENGTH
  · rw [if_pos hbig]
    cases hv : verifyAnnounce dest P V N10p R10p
        (some (((P ++ V ++ N10p ++ R10p ++ S ++ a).drop 84).take 32))
        (((P ++ V ++ N10p ++ R10p ++ S ++ a).drop 116).take 64)
        ((P ++ V ++ N10p ++ R10p ++ S ++ a).drop 180) with
    | ok u => exact ⟨_, rfl, rfl⟩
    | error e =>
      rw [e5, e6, hverify]
      exact ⟨_, rfl, rfl⟩
  · rw [if_neg hbig, e5, e6, hverify]
    exact ⟨_, rfl, rfl⟩

end Dest

namespace Dest

open RnsCrypto

theorem announce_some_inv (id : PrivateIdentity) (nameHash randHash a : List Nat)
    (pkt : Packet)
    (hP : id.pubKey.length = 32) (hV : id.verKey.length = 32)
    (hN : nameHash.length = 32) (hR : randHash.length = 32)
    (h : announce id nameHash randHash (some a) = Except.ok pkt) :
    148 + a.length ≤ PACKET_MDU ∧
    pkt = { header := announceHeader, ifac := none,
            destination := createAddressHash id.pubKey id.verKey nameHash,
            transport := none, context := PacketContext.noContext,
            data := id.pubKey ++ id.verKey ++ nameHash.take 10 ++ randHash.take 10 ++
              edSign id.verKey
                (createAddressHash id.pubKey id.verKey nameHash ++ id.pubKey ++
                  id.verKey ++ nameHash.take 10 ++ randHash.take 10 ++ a) ++ a } := by
  have haddr := createAddressHash_length id.pubKey id.verKey nameHash
  have hN10 : (nameHash.take NAME_HASH_LENGTH).length = 10 := by
    simp [hN, NAME_HASH_LENGTH]
  have hR10 : (randHash.take RAND_HASH_LENGTH).length = 10 := by
    simp [hR, RAND_HASH_LENGTH]
  have s1 : bufSafeWrite [] (createAddressHash id.pubKey id.verKey nameHash) =
      createAddressHash id.pubKey id.verKey nameHash := by
    rw [bufSafeWrite_ok _ _ (by simp [haddr, PACKET_MDU]), List.nil_append]
  have s2 : bufSafeWrite (createAddressHash id.pubKey id.verKey nameHash) id.pubKey =
      createAddressHash id.pubKey id.verKey nameHash ++ id.pubKey :=
    bufSafeWrite_ok _ _ (by simp [haddr, hP, PACKET_MDU])
  have s3 : bufSafeWrite (createAddressHash id.pubKey id.verKey nameHash ++ id.pubKey)
      id.verKey = createAddressHash id.pubKey id.verKey nameHash ++ id.pubKey ++
        id.verKey :=
    bufSafeWrite_ok _ _ (by simp [haddr, hP, hV, PACKET_MDU])
  have s4 : bufSafeWrite (createAddressHash id.pubKey id.verKey nameHash ++ id.pubKey ++
      id.verKey) (nameHash.take NAME_HASH_LENGTH) =
      createAddressHash id.pubKey id.verKey nameHash ++ id.pubKey ++ id.verKey ++
        nameHash.take NAME_HASH_LENGTH :=
    bufSafeWrite_ok _ _ (by simp [haddr, hP, hV, hN10, PACKET_MDU])
  have s5 : bufSafeWrite (createAddressHash id.pubKey id.verKey nameHash ++ id.pubKey ++
      id.verKey ++ nameHash.take NAME_HASH_LENGTH) (randHash.take RAND_HASH_LENGTH) =
      createAddressHash id.pubKey id.verKey nameHash ++ id.pubKey ++ id.verKey ++
        nameHash.take NAME_HASH_LENGTH ++ randHash.take RAND_HASH_LENGTH :=
    bufSafeWrite_ok _ _ (by simp [haddr, hP, hV, hN10, hR10, PACKET_MDU])
  rw [announce, s1, s2, s3, s4, s5] at h
  rw [bufWrite] at h
  split at h
  case isFalse hc1 =>
    rw [exBindErr] at h
    exact absurd h (by simp)
  case isTrue hc1 =>
    simp only [exBindOk] at h
    have hcap1 : 100 + a.length ≤ PACKET_MDU := by
      simpa [haddr, hP, hV, hN10, hR10] using hc1
    have t1 : bufSafeWrite [] id.pubKey = id.pubKey := by
      rw [bufSafeWrite_ok _ _ (by simp [hP, PACKET_MDU]), List.nil_append]
    have t2 : bufSafeWrite id.pubKey id.verKey = id.pubKey ++ id.verKey :=
      bufSafeWrite_ok _ _ (by simp [hP, hV, PACKET_MDU])
    have t3 : bufSafeWrite (id.pubKey ++ id.verKey) (nameHash.take NAME_HASH_LENGTH) =
        id.pubKey ++ id.verKey ++ nameHash.take NAME_HASH_LENGTH :=
      bufSafeWrite_ok _ _ (by simp [hP, hV, hN10, PACKET_MDU])
    have t4 : bufSafeWrite (id.pubKey ++ id.verKey ++ nameHash.take NAME_HASH_LENGTH)
        (randHash.take RAND_HASH_LENGTH) =
        id.pubKey ++ id.verKey ++ nameHash.take NAME_HASH_LENGTH ++
          randHash.take RAND_HASH_LENGTH :=
      bufSafeWrite_ok _ _ (by simp [hP, hV, hN10, hR10, PACKET_MDU])
    have t5 : bufSafeWrite (id.pubKey ++ id.verKey ++ nameHash.take NAME_HASH_LENGTH ++
        randHash.take RAND_HASH_LENGTH)
        (edSign id.verKey
          (createAddressHash id.pubKey id.verKey nameHash ++ id.pubKey ++ id.verKey ++
            nameHash.take NAME_HASH_LENGTH ++ randHash.take RAND_HASH_LENGTH ++ a)) =
        id.pubKey ++ id.verKey ++ nameHash.take NAME_HASH_LENGTH ++
          randHash.take RAND_HASH_LENGTH ++
          edSign id.verKey
            (createAddressHash id.pubKey id.verKey nameHash ++ id.pubKey ++ id.verKey ++
              nameHash.take NAME_HASH_LENGTH ++ randHash.take RAND_HASH_LENGTH ++ a) :=
      bufSafeWrite_ok _ _ (by simp [hP, hV, hN10, hR10, edSign_length, PACKET_MDU])
    rw [t1, t2, t3, t4, t5] at h
    rw [bufWrite] at h
    split at h
    case isFalse hc2 =>
      rw [exBindErr] at h
      exact absurd h (by simp)
    case isTrue hc2 =>
      simp only [exBindOk] at h
      have hcap2 : 148 + a.length ≤ PACKET_MDU := by
        simpa [hP, hV, hN10, hR10, edSign_length] using hc2
      refine ⟨hcap2, ?_⟩
      have := Except.ok.inj h
      rw [← this]
      rfl

end Dest

namespace Dest

open RnsCrypto

theorem createAddressHash_nameSlice (P V nameHash : List Nat)
    (hN : 10 ≤ nameHash.length) :
    createAddressHash P V (nameFromHashSlice (nameHash.take 10)) =
      createAddressHash P V nameHash := by
  have hlen : (nameHash.take 10).length = 10 := by
    rw [List.length_take]; omega
  have h32 : (nameHash.take 10).take 32 = nameHash.take 10 :=
    List.take_of_length_le (by omega)
  have h1 : (nameFromHashSlice (nameHash.take 10)).take 10 = nameHash.take 10 := by
    rw [nameFromHashSlice, h32]
    exact List.take_left' hlen
  rw [createAddressHash, createAddressHash, h1]

/-- C2: every announce packet the code produces validates, and the
returned output destination carries the announcing destination's address
hash (which is also the packet's destination field). -/
theorem claim_C2_announce_validate (id : PrivateIdentity)
    (nameHash randHash : List Nat) (appData : Option (List Nat)) (pkt : Packet)
    (hP : id.pubKey.length = 32) (hV : id.verKey.length = 32)
    (hN : nameHash.length = 32) (hR : randHash.length = 32)
    (h : announce id nameHash randHash appData = Except.ok pkt) :
    ∃ info : AnnounceInfo, validate pkt = Except.ok info ∧
      info.outputDestination.addressHash = pkt.destination ∧
      pkt.destination = createAddressHash id.pubKey id.verKey nameHash := by
  have haddr := createAddressHash_length id.pubKey id.verKey nameHash
  have hN10 : (nameHash.take NAME_HASH_LENGTH).length = 10 := by
    simp [hN, NAME_HASH_LENGTH]
  have hR10 : (randHash.take RAND_HASH_LENGTH).length = 10 := by
    simp [hR, RAND_HASH_LENGTH]
  have hslice : createAddressHash id.pubKey id.verKey
      (nameFromHashSlice (nameHash.take NAME_HASH_LENGTH)) =
      createAddressHash id.pubKey id.verKey nameHash := by
    have : NAME_HASH_LENGTH = 10 := rfl
    rw [this]
    exact createAddressHash_nameSlice _ _ _ (by omega)
  cases appData with
  | none =>
    rw [announce_none_eq id _ _ hP hV hN hR] at h
    have hpkt := Except.ok.inj h
    obtain ⟨info, hval, hinfo⟩ := validate_ok_of_signed
      (createAddressHash id.pubKey id.verKey nameHash) id.pubKey id.verKey
      (nameHash.take NAME_HASH_LENGTH) (randHash.take RAND_HASH_LENGTH) []
      haddr hP hV hN10 hR10 (by simp [PACKET_MDU])
      (edSign id.verKey
        (createAddressHash id.pubKey id.verKey nameHash ++ id.pubKey ++
          id.verKey ++ nameHash.take NAME_HASH_LENGTH ++
          randHash.take RAND_HASH_LENGTH))
      (by simp)
    rw [List.append_nil] at hval
    refine ⟨info, ?_, ?_, ?_⟩
    · rw [← hpkt]; exact hval
    · rw [hinfo, ← hpkt, hslice]
    · rw [← hpkt]
  | some a =>
    obtain ⟨hcap, hpkt⟩ := announce_some_inv id _ _ a pkt hP hV hN hR h
    obtain ⟨info, hval, hinfo⟩ := validate_ok_of_signed
      (createAddressHash id.pubKey id.verKey nameHash) id.pubKey id.verKey
      (nameHash.take NAME_HASH_LENGTH) (randHash.take RAND_HASH_LENGTH) a
      haddr hP hV hN10 hR10 hcap
      (edSign id.verKey
        (createAddressHash id.pubKey id.verKey nameHash ++ id.pubKey ++
          id.verKey ++ nameHash.take NAME_HASH_LENGTH ++
          randHash.take RAND_HASH_LENGTH ++ a))
      rfl
    refine ⟨info, ?_, ?_, ?_⟩
    · rw [hpkt]; exact hval
    · rw [hinfo, hpkt, hslice]
    · rw [hpkt]

end Dest

namespace Dest

set_option maxRecDepth 100000 in
/-- C10: `validate` does not require the packet's destination field to
match the recomputed address hash — a forged announce whose destination
differs validates (the mismatch is only logged) — and every successful
validation rebuilds the returned destination from the embedded keys and
name hash, not from the packet's destination field. -/
theorem claim_C10_destination_not_checked :
    ((validate forgedPkt).isOk = true ∧
      forgedPkt.destination ≠
        createAddressHash (forgedPkt.data.take 32) ((forgedPkt.data.drop 32).take 32)
          (nameFromHashSlice ((forgedPkt.data.drop 64).take 10))) ∧
    (∀ (pkt : Packet) (info : AnnounceInfo), validate pkt = Except.ok info →
      info.outputDestination =
        { identity := { pubKey := pkt.data.take 32,
                        verKey := (pkt.data.drop 32).take 32 },
          nameHash := nameFromHashSlice ((pkt.data.drop 64).take 10),
          addressHash := createAddressHash (pkt.data.take 32)
            ((pkt.data.drop 32).take 32)
            (nameFromHashSlice ((pkt.data.drop 64).take 10)) }) := by
  constructor
  · exact ⟨by decide, by decide⟩
  · intro pkt info h
    simp only [validate] at h
    split at h
    · exact absurd h (by simp)
    · split at h
      · exact absurd h (by simp)
      · split at h
        · exact absurd h (by simp)
        · split at h
          · split at h
            · rw [← Except.ok.inj h]
            · split at h
              · rw [← Except.ok.inj h]
              · exact absurd h (by simp)
          · split at h
            · rw [← Except.ok.inj h]
            · exact absurd h (by simp)

set_option maxRecDepth 100000 in
theorem claim_C10_witness :
    validate forgedPkt = Except.ok forgedInfo ∧
    forgedInfo.outputDestination =
      { identity := { pubKey := forgedPkt.data.take 32,
                      verKey := (forgedPkt.data.drop 32).take 32 },
        nameHash := nameFromHashSlice ((forgedPkt.data.drop 64).take 10),
        addressHash := createAddressHash (forgedPkt.data.take 32)
          ((forgedPkt.data.drop 32).take 32)
          (nameFromHashSlice ((forgedPkt.data.drop 64).take 10)) } := by
  have h : validate forgedPkt = Except.ok forgedInfo := by decide
  exact ⟨h, claim_C10_destination_not_checked.2 forgedPkt forgedInfo h⟩

set_option maxRecDepth 100000 in
theorem claim_C2_witness :
    cPriv.pubKey.length = 32 ∧ cPriv.verKey.length = 32 ∧
    cName.length = 32 ∧ cRand.length = 32 ∧
    announce cPriv cName cRand none = Except.ok cPkt ∧
    (∃ info : AnnounceInfo, validate cPkt = Except.ok info ∧
      info.outputDestination.addressHash = cPkt.destination ∧
      cPkt.destination = createAddressHash cPriv.pubKey cPriv.verKey cName) := by
  have h : announce cPriv cName cRand none = Except.ok cPkt := by decide
  exact ⟨by decide, by decide, by decide, by decide, h,
    claim_C2_announce_validate cPriv cName cRand none cPkt
      (by decide) (by decide) (by decide) (by decide) h⟩

end Dest

namespace Res

open RnsCrypto Dest

theorem chunksGo_length (size : Nat) (hs : 0 < size) :
    ∀ (fuel : Nat) (l : List Nat), l.length < fuel →
      (chunksGo size fuel l).length = (l.length + size - 1) / size := by
  intro fuel
  induction fuel with
  | zero => intro l h; exact absurd h (Nat.not_lt_zero _)
  | succ fuel ih =>
    intro l h
    rw [chunksGo]
    by_cases hl : l.isEmpty
    · have hnil : l = [] := by cases l <;> simp_all
      subst hnil
      rw [if_pos (by rfl)]
      show (0 : Nat) = ([].length + size - 1) / size
      rw [List.length_nil]
      exact (Nat.div_eq_of_lt (by omega)).symm
    · rw [if_neg hl]
      have hlen : 0 < l.length := by cases l <;> simp_all
      simp only [List.length_cons]
      rw [ih (l.drop size) (by rw [List.length_drop]; omega), List.length_drop]
      by_cases hge : size ≤ l.length
      · have h1 : l.length - size + size - 1 = l.length - 1 := by omega
        have h2 : l.length + size - 1 = (l.length - 1) + size := by omega
        rw [h1, h2, Nat.add_div_right _ hs]
      · have h1 : l.length - size = 0 := by omega
        rw [h1]
        have h2 : (0 + size - 1) / size = 0 := Nat.div_eq_of_lt (by omega)
        rw [h2]
        have h3 : l.length + size - 1 = (l.length - 1) + size := by omega
        rw [h3, Nat.add_div_right _ hs, Nat.div_eq_of_lt (by omega)]

theorem chunks_length (size : Nat) (hs : 0 < size) (l : List Nat) :
    (chunks size l).length = (l.length + size - 1) / size :=
  chunksGo_length size hs _ l (by omega)

/-- C3 (amended): a `PACKET_MDU`-sized payload with no metadata starts
successfully, but the 4-byte random prefix plus the link cipher's
overhead push the ciphertext past one MDU, so the advertisement reports
exactly two parts — not one — for any cipher output within two MDUs. -/
theorem claim_C3_mdu_payload_two_parts (lm : LinkModel)
    (randomHash prefixRandom data cipher : List Nat)
    (hdata : data.length = Dest.PACKET_MDU)
    (henc : lm.encrypt (prefixRandom ++ data) = some cipher)
    (hlow : Dest.PACKET_MDU < cipher.length)
    (hhigh : cipher.length ≤ 2 * Dest.PACKET_MDU) :
    ∃ (rh : List Nat) (adv : ResourceAdvertisement) (sender : ResourceSender),
      startSend lm randomHash prefixRandom data none = Except.ok (rh, adv, sender) ∧
      adv.parts = 2 ∧ sender.parts.length = 2 := by
  have henc2 : lm.encrypt (prefixRandom ++ ([] ++ data)) = some cipher := by
    rw [List.nil_append]; exact henc
  have hparts : (chunks Dest.PACKET_MDU cipher).length = 2 := by
    rw [chunks_length _ (by rw [Dest.PACKET_MDU]; omega)]
    rw [Dest.PACKET_MDU] at hlow hhigh ⊢
    have h3 : cipher.length + 464 - 1 = (cipher.length - 465) + 464 + 464 := by omega
    rw [h3, Nat.add_div_right _ (by omega), Nat.add_div_right _ (by omega),
      Nat.div_eq_of_lt (by omega)]
  rw [startSend, ResourceSender.new]
  simp only [exBindOk, henc2]
  refine ⟨_, _, _, rfl, ?_, hparts⟩
  simp only [ResourceSender.advertisement]
  exact hparts

end Res

namespace Res

open RnsCrypto Dest

set_option maxRecDepth 1000000 in
theorem claim_C3_counterexample :
    (ResourceSender.new trivLink c1RandomHash c1PrefixRandom
      (List.replicate Dest.PACKET_MDU 0) none).isOk = true ∧
    (c3Sender.advertisement 0).parts = 2 ∧
    ¬ ((c3Sender.advertisement 0).parts = 1) :=
  ⟨by decide, by decide, by decide⟩

set_option maxRecDepth 1000000 in
theorem claim_C3_witness :
    (List.replicate Dest.PACKET_MDU 0).length = Dest.PACKET_MDU ∧
    trivLink.encrypt (c1PrefixRandom ++ List.replicate Dest.PACKET_MDU 0) =
      some c3Cipher ∧
    Dest.PACKET_MDU < c3Cipher.length ∧
    c3Cipher.length ≤ 2 * Dest.PACKET_MDU ∧
    (∃ (rh : List Nat) (adv : ResourceAdvertisement) (sender : ResourceSender),
      startSend trivLink c1RandomHash c1PrefixRandom
        (List.replicate Dest.PACKET_MDU 0) none = Except.ok (rh, adv, sender) ∧
      adv.parts = 2 ∧ sender.parts.length = 2) :=
  ⟨by decide, rfl, by decide, by decide,
    claim_C3_mdu_payload_two_parts trivLink c1RandomHash c1PrefixRandom _ c3Cipher
      (by decide) rfl (by decide) (by decide)⟩

set_option maxRecDepth 1000000 in
/-- C1 (failing-input evaluation): on a transfer carrying metadata, the
sender advertises `SHA-256(metadata_prefix || data || random_hash)` but
the receiver, after collecting every part, decrypting, and splitting the
metadata off, recomputes the hash over the bare data only — the hashes
differ, the receiver marks the transfer `Failed` and emits no
`ResourceProof`, so the sender can never reach `Complete`; the identical
transfer without metadata completes, and the sender rejects any proof
other than its `expected_proof`. -/
theorem claim_C1_metadata_transfer_fails :
    (ResourceSender.new trivLink c1RandomHash c1PrefixRandom c1Data
      (some c1Meta)).isOk = true ∧
    c1Sender.resource_hash =
      sha256 ((natToBytesBE 3 c1Meta.length ++ c1Meta ++ c1Data) ++ c1RandomHash) ∧
    c1Sender.parts.length = 1 ∧
    c1Result.2 = PartOutcome.incomplete ∧
    c1Result.1.status = ResourceStatus.failed ∧
    sha256 (c1Data ++ c1RandomHash) ≠ c1Sender.resource_hash ∧
    (c1Sender.handleProof
      { resource_hash := c1Sender.resource_hash,
        proof := sha256 (c1Data ++ c1Sender.resource_hash) }).2 = false ∧
    c1ResultNoMeta.1.status = ResourceStatus.complete ∧
    (c1SenderNoMeta.handleProof
      { resource_hash := c1SenderNoMeta.resource_hash,
        proof := sha256 (c1Data ++ c1SenderNoMeta.resource_hash) }).2 = true :=
  ⟨by decide, by decide, by decide, by decide, by decide, by decide, by decide,
    by decide, by decide⟩

end Res
